import Mathlib

/-!
Shallow embedding of the dreamtui rendering core (TypeScript) in Lean 4.

Embedding conventions:
* JS numbers are modelled as `ℚ` with exact arithmetic; all arithmetic in the
  renderer stays far below 2^53 so exact rationals coincide with float64 for
  the integer-observable results — except inside `seedFromText`, whose plain
  `*` multiply exceeds 2^53 and is therefore modelled with explicit float64
  rounding (`roundFloat64Int`).
* Transcendental functions (`Math.sin`, `Math.cos`, `Math.sqrt`, `Math.PI`)
  are kept abstract as fields of a `MathOps` parameter: every structural
  property proved below holds for the actual float implementations as a
  special case.
* Grid coordinates are `Int` (every call site floors or rounds before
  indexing); grid cell storage is three parallel `List String`s exactly as in
  the source class.
* `Option String` models the optional `fg?`/`bg?` parameters; JS truthiness
  of a string (`undefined` and `""` are falsy) is `jsTruthy`.
-/

/-- `Math.floor` on exact rationals. -/
def jsFloor (q : ℚ) : Int := ⌊q⌋

/-- `Math.round` on exact rationals (round half toward +∞, as in JS). -/
def jsRound (q : ℚ) : Int := ⌊q + 1/2⌋

/-- JS string truthiness of an optional string argument:
`undefined` and `""` are falsy, every other string is truthy. -/
def jsTruthy : Option String → Bool
  | some s => !s.isEmpty
  | none => false

/-- One cell of the compositing surface: glyph, foreground, background. -/
structure Cell where
  char : String
  fg : String
  bg : String
deriving DecidableEq, Repr

/-- The blank cell returned by `Grid.getCell` out of bounds and used by
`Grid.clear` as default content. -/
def blankCell : Cell := ⟨" ", "#888888", "#000000"⟩

/-- `Grid` — width, height, and three same-length dense row-major arrays,
mirroring the three parallel arrays of the TS class. -/
structure Grid where
  width : Nat
  height : Nat
  cells : List String
  fgColors : List String
  bgColors : List String
deriving DecidableEq, Repr

/-- The `Grid(width, height)` constructor: arrays of length `width*height`
filled with the blank defaults. -/
def Grid.make (w h : Nat) : Grid :=
  ⟨w, h, List.replicate (w*h) " ", List.replicate (w*h) "#888888",
    List.replicate (w*h) "#000000"⟩

/-- The structural invariant maintained by every grid the program builds:
all three arrays have length `width*height`. -/
def Grid.wellFormed (g : Grid) : Prop :=
  g.cells.length = g.width * g.height ∧
  g.fgColors.length = g.width * g.height ∧
  g.bgColors.length = g.width * g.height

instance (g : Grid) : Decidable g.wellFormed := by
  unfold Grid.wellFormed; infer_instance

/-- `index(x, y) = y * width + x` (row-major). -/
def Grid.idx (g : Grid) (x y : Int) : Int := y * g.width + x

/-- `inBounds(x, y)`. -/
def Grid.inBounds (g : Grid) (x y : Int) : Prop :=
  0 ≤ x ∧ x < g.width ∧ 0 ≤ y ∧ y < g.height

instance (g : Grid) (x y : Int) : Decidable (g.inBounds x y) := by
  unfold Grid.inBounds; infer_instance

/-- Conditional color write: `if (fg) this.fgColors[i] = fg`. -/
def colorWrite (l : List String) (i : Nat) (c : Option String) : List String :=
  if jsTruthy c then l.set i (c.getD "") else l

/-- `Grid.setCell`: no-op out of bounds; glyph always written, each color
written only when supplied and truthy. -/
def Grid.setCell (g : Grid) (x y : Int) (ch : String)
    (fg bg : Option String) : Grid :=
  if g.inBounds x y then
    let i := (g.idx x y).toNat
    { g with cells := g.cells.set i ch,
             fgColors := colorWrite g.fgColors i fg,
             bgColors := colorWrite g.bgColors i bg }
  else g

/-- `Grid.getCell`: safe blank default out of bounds, `?? default` fallbacks
in bounds. -/
def Grid.getCell (g : Grid) (x y : Int) : Cell :=
  if g.inBounds x y then
    let i := (g.idx x y).toNat
    ⟨g.cells.getD i " ", g.fgColors.getD i "#888888",
      g.bgColors.getD i "#000000"⟩
  else blankCell

/-- `Grid.clear(char, fg, bg)` — `Array.prototype.fill` on each array. -/
def Grid.clearWith (g : Grid) (ch fg bg : String) : Grid :=
  { g with cells := g.cells.map (fun _ => ch),
           fgColors := g.fgColors.map (fun _ => fg),
           bgColors := g.bgColors.map (fun _ => bg) }

/-- `Grid.clear()` with the default arguments, as called by the renderer. -/
def Grid.clear (g : Grid) : Grid := g.clearWith " " "#888888" "#000000"

/-- `Grid.fillRect(x0, y0, w, h, char, fg?, bg?)`: iterated `setCell`,
silently clipped by `setCell`'s own bounds check. -/
def Grid.fillRect (g : Grid) (x0 y0 w h : Int) (ch : String)
    (fg bg : Option String) : Grid :=
  (List.range h.toNat).foldl
    (fun gy j =>
      (List.range w.toNat).foldl
        (fun gx i => gx.setCell (x0 + i) (y0 + j) ch fg bg) gy)
    g

/-! ## Animation loop (src/core/AnimationLoop.ts) -/

/-- `AnimationState = "running" | "paused" | "stopped"`. -/
inductive AnimState where
  | running
  | paused
  | stopped
deriving DecidableEq, Repr

/-- The `AnimationLoop` class state: elapsed seconds, playback state, fps. -/
structure AnimationLoop where
  elapsedTime : ℚ
  state : AnimState
  fps : ℚ
deriving DecidableEq, Repr

/-- `new AnimationLoop(fps)` — stores the argument verbatim, state stopped,
elapsed time 0.  (The TS default argument is 13.) -/
def AnimationLoop.init (fps : ℚ) : AnimationLoop := ⟨0, .stopped, fps⟩

/-- `tick(deltaTimeMs)`: returns `(null, unchanged)` unless running, else
adds `deltaTimeMs / 1000` to the elapsed time and returns the new value. -/
def AnimationLoop.tick (l : AnimationLoop) (deltaTimeMs : ℚ) :
    Option ℚ × AnimationLoop :=
  if l.state = .running then
    let e := l.elapsedTime + deltaTimeMs / 1000
    (some e, { l with elapsedTime := e })
  else (none, l)

def AnimationLoop.start (l : AnimationLoop) : AnimationLoop :=
  { l with state := .running }

def AnimationLoop.pause (l : AnimationLoop) : AnimationLoop :=
  if l.state = .running then { l with state := .paused } else l

def AnimationLoop.resume (l : AnimationLoop) : AnimationLoop :=
  if l.state = .paused then { l with state := .running } else l

def AnimationLoop.togglePause (l : AnimationLoop) : AnimationLoop :=
  if l.state = .running then l.pause
  else if l.state = .paused then l.resume else l

/-- `stop()`: state stopped, elapsed time forced to 0. -/
def AnimationLoop.stop (l : AnimationLoop) : AnimationLoop :=
  { l with state := .stopped, elapsedTime := 0 }

def AnimationLoop.reset (l : AnimationLoop) : AnimationLoop :=
  { l with elapsedTime := 0 }

def AnimationLoop.getState (l : AnimationLoop) : AnimState := l.state

def AnimationLoop.getElapsedTime (l : AnimationLoop) : ℚ := l.elapsedTime

def AnimationLoop.getFps (l : AnimationLoop) : ℚ := l.fps

/-- `setFps(fps)`: `Math.max(1, Math.min(60, fps))`. -/
def AnimationLoop.setFps (l : AnimationLoop) (fps : ℚ) : AnimationLoop :=
  { l with fps := max 1 (min 60 fps) }

/-- The tempo→multiplier record inside `fpsFromTempo`. -/
def tempoFpsMultiplier : String → Option ℚ
  | "frozen" => some (3/10)
  | "slow" => some (6/10)
  | "medium" => some 1
  | "fast" => some (3/2)
  | "frantic" => some (11/5)
  | _ => none

/-- `AnimationLoop.fpsFromTempo(tempo, baseFps)`:
`Math.round(baseFps * (multipliers[tempo] ?? 1.0))`. -/
def AnimationLoop.fpsFromTempo (tempo : String) (baseFps : ℚ) : Int :=
  jsRound (baseFps * ((tempoFpsMultiplier tempo).getD 1))

/-- State reached from `l` after ticking through a whole list of deltas. -/
def AnimationLoop.runTicks (l : AnimationLoop) (ds : List ℚ) : AnimationLoop :=
  ds.foldl (fun g d => (g.tick d).2) l

/-! ## Seed derivation (src/core/SeedManager.ts)

`seedFromText` multiplies the 32-bit accumulator by the FNV prime with the
plain JS `*` operator (not `Math.imul`), so the product is a float64 whose
magnitude can exceed 2^53; the low bits lost to float rounding survive the
subsequent `| 0`.  The embedding therefore models the float64 rounding of
integer products explicitly. -/

/-- Position of the highest set bit of `m` (⌊log₂ m⌋) for `m < 2^64`,
computed by bounded scan so the kernel can evaluate it. -/
def binExp (m : Nat) : Nat :=
  (List.range 64).foldl (fun acc k => if 2^k ≤ m then k else acc) 0

/-- Round an integer to the nearest float64-representable integer
(ties to even), valid for magnitudes below 2^64: values below 2^53 are
exact; above, the value is rounded to the nearest multiple of the unit in
the last place of its binade. -/
def roundFloat64Int (n : Int) : Int :=
  if n.natAbs < 2^53 then n
  else
    let m := n.natAbs
    let u := 2^(binExp m - 52)
    let q := m / u
    let r := m % u
    let m' :=
      if 2*r < u then q*u
      else if u < 2*r then (q+1)*u
      else if q % 2 = 0 then q*u else (q+1)*u
    if n < 0 then -(m' : Int) else (m' : Int)

/-- JS `ToInt32`: wrap modulo 2^32 into the signed 32-bit range. -/
def jsToInt32 (n : Int) : Int :=
  let m := n % (2^32 : Int)
  if m < 2^31 then m else m - 2^32

/-- One iteration of the `seedFromText` loop:
`hash ^= text.charCodeAt(i); hash = (hash * 0x01000193) | 0`.
The XOR is JS's 32-bit XOR (ToInt32 both operands, bitwise on the unsigned
representations, reinterpret signed); the multiply is a float64 multiply. -/
def seedFromTextStep (h : Int) (c : Char) : Int :=
  let hu := (h % (2^32 : Int)).toNat
  let cu := ((c.toNat : Int) % (2^32 : Int)).toNat
  let x := jsToInt32 (Nat.xor hu cu : Nat)
  jsToInt32 (roundFloat64Int (x * 16777619))

/-- `seedFromText(text)`: fold from the FNV offset basis, absolute value. -/
def seedFromText (s : String) : Int :=
  |s.toList.foldl seedFromTextStep 2166136261|

/-- Modelled from the spec: the exact-arithmetic FNV-1a-style hash the spec
describes — "fold each character code into an accumulator via XOR then a
wrapping 32-bit multiply by a fixed prime, starting from a fixed offset
basis; return the absolute value".  Identical to `seedFromText` except that
the multiply wraps exactly, with no float64 rounding. -/
def fnvSpecStep (h : Int) (c : Char) : Int :=
  let hu := (h % (2^32 : Int)).toNat
  let cu := ((c.toNat : Int) % (2^32 : Int)).toNat
  let x := jsToInt32 (Nat.xor hu cu : Nat)
  jsToInt32 (x * 16777619)

/-- Modelled from the spec: exact wrapping-multiply variant of
`seedFromText`. -/
def fnvSpecSeed (s : String) : Int :=
  |s.toList.foldl fnvSpecStep 2166136261|

/-! ## Scene spec (src/domain/DreamSpec.ts)

The TS enums are string-valued; the embedding keeps the strings. -/

/-- `DreamSpec` — the normalized scene specification. -/
structure DreamSpec where
  asciiArt : List String
  colorPalette : List String
  dominantElements : List String
  motion : String
  distortion : String
  tempo : String
  density : ℚ
  mood : String
deriving DecidableEq, Repr

/-- Abstract interface for the transcendental `Math` functions used by the
layers.  Every theorem below quantifying over `MathOps` holds in particular
for the real float64 `Math.sin`/`Math.cos`/`Math.sqrt`/`Math.PI`. -/
structure MathOps where
  sin : ℚ → ℚ
  cos : ℚ → ℚ
  sqrt : ℚ → ℚ
  pi : ℚ

/-- A concrete `MathOps` instance for evaluation in closed statements.
`sin 0 = 0` and `cos 0 = 1` agree with the real functions at 0. -/
def zeroOps : MathOps := ⟨fun _ => 0, fun _ => 0, fun _ => 0, 0⟩

/-! ## Shared hex-color helpers (AsciiArtLayer.dimColor and friends) -/

/-- Value of one hexadecimal digit character, if valid. -/
def hexDigitVal (c : Char) : Option Nat :=
  if '0' ≤ c ∧ c ≤ '9' then some (c.toNat - '0'.toNat)
  else if 'a' ≤ c ∧ c ≤ 'f' then some (c.toNat - 'a'.toNat + 10)
  else if 'A' ≤ c ∧ c ≤ 'F' then some (c.toNat - 'A'.toNat + 10)
  else none

/-- Greedy hex-prefix accumulation of `Number.parseInt(s, 16)`. -/
def parseHexDigits : Nat → List Char → Nat
  | acc, [] => acc
  | acc, c :: cs =>
    match hexDigitVal c with
    | some d => parseHexDigits (acc * 16 + d) cs
    | none => acc

/-- `Number.parseInt(s, 16)`: `none` models `NaN` (no leading valid digit);
otherwise the value of the longest valid prefix.  (Leading whitespace and
signs never occur at the call sites — the inputs are slices of `#rrggbb`
strings.) -/
def parseIntHex (s : String) : Option Nat :=
  match s.toList with
  | [] => none
  | c :: cs =>
    match hexDigitVal c with
    | some d => some (parseHexDigits d cs)
    | none => none

/-- `hex.slice(a, b)` for ASCII hex color strings. -/
def strSlice (s : String) (a b : Nat) : String :=
  ⟨(s.toList.drop a).take (b - a)⟩

/-- `n.toString(16)` for integers (lowercase digits, `-` prefix when
negative). -/
def jsHexString (n : Int) : String :=
  if n < 0 then "-" ++ ⟨Nat.toDigits 16 n.natAbs⟩ else ⟨Nat.toDigits 16 n.toNat⟩

/-- `.padStart(2, "0")`. -/
def padStart2 (s : String) : String :=
  if s.length < 2 then "0" ++ s else s

/-- One channel of `dimColor`: parse, scale by `factor`, floor, re-encode.
A failed parse propagates as the literal `"NaN"` produced by
`NaN.toString(16)` in JS. -/
def dimChannel (o : Option Nat) (factor : ℚ) : String :=
  match o with
  | some n => padStart2 (jsHexString ⌊(n : ℚ) * factor⌋)
  | none => padStart2 "NaN"

/-- `AsciiArtLayer.dimColor(hex, factor)`. -/
def dimColor (hex : String) (factor : ℚ) : String :=
  let r := parseIntHex (strSlice hex 1 3)
  let g := parseIntHex (strSlice hex 3 5)
  let b := parseIntHex (strSlice hex 5 7)
  "#" ++ dimChannel r factor ++ dimChannel g factor ++ dimChannel b factor

/-! ## Art layer (src/renderer/layers/AsciiArtLayer.ts) -/

/-- The `MOOD_PALETTES` table. -/
def moodPalettes : String → Option (List String)
  | "surreal" => some ["#cc44ff", "#ff44cc", "#44ccff", "#ffcc44", "#8844ff"]
  | "calm" => some ["#4488cc", "#66aadd", "#88bbee", "#aaccee", "#88ccaa"]
  | "anxious" => some ["#ff4444", "#ff6644", "#ffaa33", "#ff2222", "#cc2222"]
  | "ethereal" => some ["#aabbff", "#ccddff", "#eeeeff", "#bbccff", "#99aaee"]
  | "dark" => some ["#443355", "#332244", "#554466", "#221133", "#665577"]
  | "whimsical" => some ["#ff88cc", "#88ffcc", "#ccff88", "#ffcc88", "#88ccff"]
  | "melancholic" => some ["#4455aa", "#5566bb", "#334499", "#6677cc", "#223388"]
  | "euphoric" => some ["#ffdd44", "#ffee66", "#ffcc22", "#ffaa00", "#ffff88"]
  | "eerie" => some ["#22ff88", "#44cc66", "#11aa55", "#33dd77", "#00ff66"]
  | "nostalgic" => some ["#cc9966", "#ddaa77", "#bb8855", "#eebb88", "#aa7744"]
  | _ => none

def defaultPalette : List String :=
  ["#8888cc", "#aa88cc", "#88aacc", "#cc88aa", "#88ccaa"]

/-- `AsciiArtLayer.getPalette`: verbatim spec palette when non-empty, else
mood table, else the hard-coded default. -/
def getPalette (spec : DreamSpec) : List String :=
  if spec.colorPalette.length > 0 then spec.colorPalette
  else (moodPalettes spec.mood).getD defaultPalette

/-- `AsciiArtLayer.getMotionOffset(motion, time, seed)` — per-motion
"breathing" offset of the whole art piece (`amp = 2.0`). -/
def getMotionOffset (ops : MathOps) (motion : String) (time seed : ℚ) :
    ℚ × ℚ :=
  let amp : ℚ := 2
  match motion with
  | "falling" =>
    (ops.sin (time * (3/10) + seed) * amp * (3/10),
      ops.sin (time * (5/10)) * amp)
  | "rising" =>
    (ops.sin (time * (3/10) + seed) * amp * (3/10),
      -(ops.sin (time * (5/10))) * amp)
  | "drifting" =>
    (ops.sin (time * (2/10) + seed * (1/10)) * amp * (15/10),
      ops.cos (time * (15/100)) * amp * (4/10))
  | "spinning" =>
    let angle := time * (3/10) + seed
    (ops.cos angle * amp, ops.sin angle * amp * (5/10))
  | "pulsing" =>
    let pulse := ops.sin (time * (15/10) + seed) * (5/10) + (5/10)
    (0, pulse * amp * (5/10))
  | "expanding" =>
    (ops.sin (time * (4/10)) * amp * (5/10),
      ops.cos (time * (3/10)) * amp * (5/10))
  | "flowing" =>
    (ops.sin (time * (25/100) + seed * (1/10)) * amp * 2,
      ops.cos (time * (15/100)) * amp * (3/10))
  | "chaotic" =>
    (ops.sin (time * 2 + seed) * amp * (15/10),
      ops.cos (time * (17/10) + seed * (13/10)) * amp)
  | _ => (0, 0)

/-- `AsciiArtLayer.getCharColor` — palette index from two sinusoids over
normalized position, dimmed by a brightness pulse. -/
def getCharColor (ops : MathOps) (x y : Nat) (artWidth artHeight : Nat)
    (palette : List String) (time seed : ℚ) : String :=
  let nx : ℚ := (x : ℚ) / (max 1 artWidth : Nat)
  let ny : ℚ := (y : ℚ) / (max 1 artHeight : Nat)
  let wave := ops.sin (nx * ops.pi * 2 + time * (3/10) + seed * (1/100))
    * (5/10) + (5/10)
  let vertWave := ops.cos (ny * ops.pi * (15/10) + time * (2/10))
    * (5/10) + (5/10)
  let colorIndex := ⌊(wave + vertWave) * (5/10) * (palette.length : ℚ)⌋
  let baseColor :=
    if palette.isEmpty then "#8888cc"
    else palette.getD (colorIndex.natAbs % palette.length)
      (palette.getD 0 "#8888cc")
  let pulse := ops.sin (time * (12/10) + (x : ℚ) * (1/10) + (y : ℚ) * (15/100))
    * (15/100) + (85/100)
  dimColor baseColor pulse

/-- `AsciiArtLayer.seededFloat(seed, min, max)`. -/
def seededFloat (ops : MathOps) (seed lo hi : ℚ) : ℚ :=
  let n := ops.sin (seed * (1271/10) + (3117/10)) * (437585453/10000)
  let frac := n - ⌊n⌋
  lo + frac * (hi - lo)

/-- `AsciiArtLayer.hashInt(a, b)`. -/
def hashInt (ops : MathOps) (a b : ℚ) : Int :=
  let n := ops.sin (a * (129898/10000) + b * (78233/1000)) * (437585453/10000)
  ⌊(n - ⌊n⌋) * 2147483647⌋

/-- Distinct non-space glyphs of the art, in first-occurrence order
(`artChars` collection loop of `drawAmbientEchoes`). -/
def collectArtChars (art : List String) : List Char :=
  art.foldl
    (fun acc line =>
      line.toList.foldl
        (fun acc2 ch =>
          if ch ≠ ' ' ∧ ch ∉ acc2 then acc2 ++ [ch] else acc2)
        acc)
    []

/-- One iteration of the echo loop of `AsciiArtLayer.drawAmbientEchoes`. -/
def echoStep (ops : MathOps) (spec : DreamSpec) (time seed : ℚ)
    (palette : List String) (artOffsetX artOffsetY : Int)
    (artWidth artHeight : Nat) (artChars : List Char) (g : Grid) (i : Nat) :
    Grid :=
  let angle := seededFloat ops (seed + (i : ℚ) * 73) 0 (ops.pi * 2)
  let distance := seededFloat ops (seed + (i : ℚ) * 137 + 500) (3/10) 1
    * ((min g.width g.height : Nat) : ℚ) * (45/100)
  let centerX : ℚ := (g.width : ℚ) / 2
  let centerY : ℚ := (g.height : ℚ) / 2
  let ex0 := ⌊centerX + ops.cos (angle + time * (1/10)) * distance⌋
  let ey0 := ⌊centerY + ops.sin (angle + time * (8/100)) * distance * (6/10)⌋
  let mo := getMotionOffset ops spec.motion (time * (5/10)) (seed + (i : ℚ))
  let ex := ex0 + ⌊mo.1 * (5/10)⌋
  let ey := ey0 + ⌊mo.2 * (5/10)⌋
  if ex < 0 ∨ (g.width : Int) ≤ ex ∨ ey < 0 ∨ (g.height : Int) ≤ ey then g
  else if artOffsetX ≤ ex ∧ ex < artOffsetX + (artWidth : Int) ∧
      artOffsetY ≤ ey ∧ ey < artOffsetY + (artHeight : Int) then g
  else if (g.getCell ex ey).char ≠ " " then g
  else
    let charIdx := (hashInt ops (seed + (i : ℚ) * 31) (i : ℚ)).natAbs
      % artChars.length
    let ch := artChars.getD charIdx '·'
    let base :=
      if palette.isEmpty then "#555555"
      else palette.getD (i % palette.length) "#555555"
    g.setCell ex ey ch.toString (some (dimColor base (35/100))) none

/-- `AsciiArtLayer.drawAmbientEchoes`: scatter up to
`Math.floor(8 + density * 20)` faded echo glyphs, silently dropping any
candidate that is out of bounds, inside the art box, or on an occupied
cell. -/
def drawAmbientEchoes (ops : MathOps) (g : Grid) (spec : DreamSpec)
    (art : List String) (time seed : ℚ) (palette : List String)
    (artOffsetX artOffsetY : Int) (artWidth artHeight : Nat) : Grid :=
  let artChars := collectArtChars art
  if artChars.isEmpty then g
  else
    let echoCount := ⌊(8 : ℚ) + spec.density * 20⌋
    (List.range echoCount.toNat).foldl
      (echoStep ops spec time seed palette artOffsetX artOffsetY
        artWidth artHeight artChars)
      g

/-- `AsciiArtLayer.apply`: center the art (with motion offset), draw each
non-space glyph with its shimmer color, then scatter ambient echoes.
(`art[row]` is always defined for `row < art.length`; an empty line makes
the inner loop empty, which subsumes the `!line` continue.) -/
def AsciiArtLayer.apply (ops : MathOps) (g : Grid) (spec : DreamSpec)
    (time seed _dt : ℚ) : Grid :=
  let art := spec.asciiArt
  if art.isEmpty then g
  else
    let palette := getPalette spec
    let artWidth : Nat := (art.map (fun l => l.toList.length)).foldl max 0
    let artHeight : Nat := art.length
    let offsetX := ⌊(((g.width : Int) - (artWidth : Int) : Int) : ℚ) / 2⌋
    let offsetY := ⌊(((g.height : Int) - (artHeight : Int) : Int) : ℚ) / 2⌋
    let mo := getMotionOffset ops spec.motion time seed
    let g1 :=
      (List.range artHeight).foldl
        (fun gr row =>
          let chars := (art.getD row "").toList
          (List.range chars.length).foldl
            (fun gc col =>
              let ch := chars.getD col ' '
              if ch = ' ' then gc
              else
                let gx := ⌊((offsetX : ℚ) + (col : ℚ)) + mo.1⌋
                let gy := ⌊((offsetY : ℚ) + (row : ℚ)) + mo.2⌋
                if gx < 0 ∨ (gc.width : Int) ≤ gx ∨ gy < 0 ∨
                    (gc.height : Int) ≤ gy then gc
                else
                  gc.setCell gx gy ch.toString
                    (some (getCharColor ops col row artWidth artHeight
                      palette time seed))
                    none)
            gr)
        g
    drawAmbientEchoes ops g1 spec art time seed palette offsetX offsetY
      artWidth artHeight

/-! ## Noise layer (src/renderer/layers/NoiseLayer.ts) -/

/-- `NOISE_CHARS`. -/
def noiseChars : List String := [" ", " ", " ", "·", "·", "∘", "░"]

/-- `MOOD_TINTS` (r, g, b). -/
def moodTints : String → Option (ℚ × ℚ × ℚ)
  | "surreal" => some (40, 20, 60)
  | "calm" => some (20, 30, 50)
  | "anxious" => some (50, 15, 15)
  | "ethereal" => some (30, 35, 55)
  | "dark" => some (15, 10, 25)
  | "whimsical" => some (45, 25, 40)
  | "melancholic" => some (20, 25, 45)
  | "euphoric" => some (50, 45, 15)
  | "eerie" => some (10, 40, 25)
  | "nostalgic" => some (45, 35, 20)
  | _ => none

/-- The sine-based pseudo-hash `h` inside `noise3d`. -/
def noiseHash (ops : MathOps) (a b c : ℚ) : ℚ :=
  let n := ops.sin (a * (1271/10) + b * (3117/10) + c * (747/10))
    * (437585453/10000)
  (n - ⌊n⌋) * 2 - 1

/-- `NoiseLayer.noise3d`: value noise with smoothstep interpolation over an
integer lattice. -/
def noise3d (ops : MathOps) (x y z : ℚ) : ℚ :=
  let ix : Int := ⌊x⌋
  let iy : Int := ⌊y⌋
  let iz : Int := ⌊z⌋
  let fx := x - (ix : ℚ)
  let fy := y - (iy : ℚ)
  let fz := z - (iz : ℚ)
  let sx := fx * fx * (3 - 2 * fx)
  let sy := fy * fy * (3 - 2 * fy)
  let sz := fz * fz * (3 - 2 * fz)
  let n000 := noiseHash ops (ix : ℚ) (iy : ℚ) (iz : ℚ)
  let n100 := noiseHash ops ((ix : ℚ) + 1) (iy : ℚ) (iz : ℚ)
  let n010 := noiseHash ops (ix : ℚ) ((iy : ℚ) + 1) (iz : ℚ)
  let n110 := noiseHash ops ((ix : ℚ) + 1) ((iy : ℚ) + 1) (iz : ℚ)
  let n001 := noiseHash ops (ix : ℚ) (iy : ℚ) ((iz : ℚ) + 1)
  let n101 := noiseHash ops ((ix : ℚ) + 1) (iy : ℚ) ((iz : ℚ) + 1)
  let n011 := noiseHash ops (ix : ℚ) ((iy : ℚ) + 1) ((iz : ℚ) + 1)
  let n111 := noiseHash ops ((ix : ℚ) + 1) ((iy : ℚ) + 1) ((iz : ℚ) + 1)
  let nx00 := n000 + sx * (n100 - n000)
  let nx10 := n010 + sx * (n110 - n010)
  let nx01 := n001 + sx * (n101 - n001)
  let nx11 := n011 + sx * (n111 - n011)
  let nxy0 := nx00 + sy * (nx10 - nx00)
  let nxy1 := nx01 + sy * (nx11 - nx01)
  nxy0 + sz * (nxy1 - nxy0)

/-- `NoiseLayer.fbm`: octave accumulation, state
(value, amplitude, frequency, maxAmplitude).  (Only ever called with 3
octaves, so the final division is never by zero.) -/
def fbm (ops : MathOps) (x y t seed : ℚ) (octaves : Nat) : ℚ :=
  let st :=
    (List.range octaves).foldl
      (fun (st : ℚ × ℚ × ℚ × ℚ) i =>
        let value := st.1
        let amplitude := st.2.1
        let frequency := st.2.2.1
        let maxAmplitude := st.2.2.2
        (value + amplitude
            * noise3d ops (x * frequency) (y * frequency)
              (t + seed + (i : ℚ) * 100),
          amplitude * (5/10), frequency * 2, maxAmplitude + amplitude))
      (0, 1, 1, 0)
  st.1 / st.2.2.2

/-- Row-major coordinate enumeration of a `w × h` grid
(`y` outer, `x` inner, as in every layer's double loop). -/
def gridCoords (w h : Nat) : List (Int × Int) :=
  ((List.range h).map
    (fun y => (List.range w).map (fun x => (Int.ofNat x, Int.ofNat y)))).flatten

/-- `getNoiseScale`: `0.04 + density * 0.08`. -/
def getNoiseScale (spec : DreamSpec) : ℚ := (4/100) + spec.density * (8/100)

/-- The tempo→timeScale record of `getTimeScale`. -/
def tempoTimeScale : String → Option ℚ
  | "frozen" => some 0
  | "slow" => some (2/100)
  | "medium" => some (5/100)
  | "fast" => some (1/10)
  | "frantic" => some (2/10)
  | _ => none

/-- `getTimeScale` with its `?? 0.05` fallback. -/
def getTimeScale (spec : DreamSpec) : ℚ :=
  (tempoTimeScale spec.tempo).getD (5/100)

/-- Per-cell body of `NoiseLayer.apply`. -/
def noiseStep (ops : MathOps) (spec : DreamSpec) (time seed : ℚ)
    (g : Grid) (c : Int × Int) : Grid :=
  if (g.getCell c.1 c.2).char ≠ " " then g
  else
    let noiseVal := fbm ops ((c.1 : ℚ) * getNoiseScale spec)
      ((c.2 : ℚ) * getNoiseScale spec) (time * getTimeScale spec) seed 3
    let charIndex : Int := ⌊((noiseVal + 1) / 2) * (noiseChars.length : ℚ)⌋
    let clamped := max 0 (min ((noiseChars.length : Int) - 1) charIndex)
    let ch := noiseChars.getD clamped.toNat " "
    if ch = " " then g
    else
      let tint := (moodTints spec.mood).getD (25, 25, 35)
      let brightness := (3/10) + ((noiseVal + 1) / 2) * (5/10)
      let hex := "#" ++ padStart2 (jsHexString ⌊tint.1 * brightness⌋)
        ++ padStart2 (jsHexString ⌊tint.2.1 * brightness⌋)
        ++ padStart2 (jsHexString ⌊tint.2.2 * brightness⌋)
      g.setCell c.1 c.2 ch (some hex) none

/-- `NoiseLayer.apply`: fill only currently-blank cells with mood-tinted
fractal value noise. -/
def NoiseLayer.apply (ops : MathOps) (g : Grid) (spec : DreamSpec)
    (time seed _dt : ℚ) : Grid :=
  (gridCoords g.width g.height).foldl (noiseStep ops spec time seed) g

/-! ## Distortion layer (src/renderer/layers/DistortionLayer.ts) -/

/-- `DistortionLayer.getStrength`: severity→strength map with its `?? 0.5`
fallback. -/
def getStrength : String → ℚ
  | "none" => 0
  | "low" => 1/4
  | "medium" => 1/2
  | "high" => 3/4
  | "extreme" => 1
  | _ => 1/2

/-- `DistortionLayer.computeOffset`: motion-specific continuous
(dx, dy) displacement. -/
def computeOffset (ops : MathOps) (x y : Int) (w h : Nat) (motion : String)
    (time seed strength : ℚ) : ℚ × ℚ :=
  let cx : ℚ := (w : ℚ) / 2
  let cy : ℚ := (h : ℚ) / 2
  let nx := ((x : ℚ) - cx) / cx
  let ny := ((y : ℚ) - cy) / cy
  match motion with
  | "falling" =>
    (ops.cos ((y : ℚ) * (2/10) + time * (5/10)) * strength * (5/10),
      ops.sin ((x : ℚ) * (3/10) + time * (15/10) + seed) * strength * 3)
  | "rising" =>
    (ops.cos ((y : ℚ) * (2/10) + time * (5/10)) * strength * (5/10),
      -(ops.sin ((x : ℚ) * (3/10) + time * (15/10) + seed)) * strength * 3)
  | "spinning" =>
    let angle := time * (8/10) + seed
    let dist := ops.sqrt (nx * nx + ny * ny)
    (ops.cos (angle + dist * 3) * strength * 4 * dist,
      ops.sin (angle + dist * 3) * strength * 4 * dist)
  | "pulsing" =>
    let pulse := ops.sin (time * 2 + seed) * (5/10) + (5/10)
    (nx * pulse * strength * 5, ny * pulse * strength * 5)
  | "drifting" =>
    (ops.sin ((y : ℚ) * (15/100) + time * (4/10) + seed) * strength * 3
        + ops.sin (time * (2/10)) * strength,
      ops.cos ((x : ℚ) * (1/10) + time * (3/10)) * strength * (5/10))
  | "expanding" =>
    let expPulse := (ops.sin (time * (12/10) + seed) + 1) * (5/10)
    (nx * expPulse * strength * 6, ny * expPulse * strength * 6)
  | "contracting" =>
    let conPulse := (ops.cos (time * (12/10) + seed) + 1) * (5/10)
    (-nx * conPulse * strength * 6, -ny * conPulse * strength * 6)
  | "flowing" =>
    (ops.sin ((y : ℚ) * (1/10) + time * (6/10) + seed) * strength * 4
        + ops.sin ((y : ℚ) * (5/100) + time * (3/10)) * strength * 2,
      ops.cos ((x : ℚ) * (8/100) + time * (2/10)) * strength)
  | "chaotic" =>
    (ops.sin ((x : ℚ) * (5/10) + time * 2 + seed) * strength * 4
        + ops.cos ((y : ℚ) * (7/10) + time * 3) * strength * 2,
      ops.cos ((y : ℚ) * (5/10) + time * (25/10) + seed) * strength * 4
        + ops.sin ((x : ℚ) * (3/10) + time * (15/10)) * strength * 2)
  | _ =>
    (ops.sin ((x : ℚ) * (2/10) + seed) * strength * (5/10),
      ops.cos ((y : ℚ) * (2/10) + seed) * strength * (5/10))

/-- The pre-warp snapshot: `getCell` of every coordinate, row-major. -/
def gridSnapshot (g : Grid) : List Cell :=
  (gridCoords g.width g.height).map (fun c => g.getCell c.1 c.2)

/-- One destination cell of the backward-warp loop: round the offset source,
copy the snapshot cell if the source is in bounds, else leave the
destination untouched.  (`snapshot[srcIdx]` is always populated for an
in-bounds source; the `if (src)` guard maps to the `Option` match.) -/
def warpStep (ops : MathOps) (snap : List Cell) (motion : String)
    (time seed strength : ℚ) (g : Grid) (c : Int × Int) : Grid :=
  let off := computeOffset ops c.1 c.2 g.width g.height motion time seed
    strength
  let srcX := jsRound ((c.1 : ℚ) + off.1)
  let srcY := jsRound ((c.2 : ℚ) + off.2)
  if 0 ≤ srcX ∧ srcX < (g.width : Int) ∧ 0 ≤ srcY ∧ srcY < (g.height : Int)
  then
    match snap.get? (srcY * (g.width : Int) + srcX).toNat with
    | some src => g.setCell c.1 c.2 src.char (some src.fg) (some src.bg)
    | none => g
  else g

/-- `glitchChars`. -/
def glitchChars : List String := ["█", "▓", "▒", "░", "╳", "╬", "┼", "≡", "≋"]

/-- One cell of `applyCharacterGlitch`: a position/time/seed pseudo-hash
decides inclusion; the fractional part also picks the glyph.
(`glitchChars[ci] ?? glitchChars[0]` with `ci < 9` always hits, and the
`if (glitchChar)` guard is always true — `getD` captures both.) -/
def glitchStep (ops : MathOps) (time seed strength : ℚ) (g : Grid)
    (c : Int × Int) : Grid :=
  let hash := ops.sin ((c.1 : ℚ) * (921/10) + (c.2 : ℚ) * (3017/10)
    + time * 50 + seed * (73/10)) * (875170/20)
  let prob := hash - (⌊hash⌋ : ℚ)
  if prob < (strength - (7/10)) * (15/100) then
    let ci := ((⌊prob * 100⌋ : Int) % (glitchChars.length : Int)).toNat
    g.setCell c.1 c.2 (glitchChars.getD ci "█") (some "#ff3366") none
  else g

/-- `DistortionLayer.applyCharacterGlitch`. -/
def applyCharacterGlitch (ops : MathOps) (g : Grid)
    (time seed strength : ℚ) : Grid :=
  (gridCoords g.width g.height).foldl (glitchStep ops time seed strength) g

/-- `DistortionLayer.apply`: no-op at strength ≤ 0; otherwise snapshot, then
backward-warp every destination cell, then (at strength ≥ 0.7) the character
glitch pass. -/
def DistortionLayer.apply (ops : MathOps) (g : Grid) (spec : DreamSpec)
    (time seed _dt : ℚ) : Grid :=
  let strength := getStrength spec.distortion
  if strength ≤ 0 then g
  else
    let snap := gridSnapshot g
    let g1 := (gridCoords g.width g.height).foldl
      (warpStep ops snap spec.motion time seed strength) g
    if (7/10) ≤ strength then applyCharacterGlitch ops g1 time seed strength
    else g1

/-! ## Renderer (src/renderer/Renderer.ts) -/

/-- `Renderer.renderFrame(spec, time, seed, deltaTime)`: clear, then art,
noise, distortion in that fixed order, on the renderer's grid. -/
def renderFrame (ops : MathOps) (spec : DreamSpec) (time seed deltaTime : ℚ)
    (g : Grid) : Grid :=
  DistortionLayer.apply ops
    (NoiseLayer.apply ops
      (AsciiArtLayer.apply ops g.clear spec time seed deltaTime)
      spec time seed deltaTime)
    spec time seed deltaTime

/-! ## Basic grid lemmas -/

lemma listGetDSetSelf {l : List String} {i : Nat} (v d : String)
    (h : i < l.length) : (l.set i v).getD i d = v := by
  simp [List.getD, List.getElem?_set_self, h]

lemma listGetDSetNe {l : List String} {i j : Nat} (v d : String)
    (h : i ≠ j) : (l.set i v).getD j d = l.getD j d := by
  simp [List.getD, List.getElem?_set_ne h]

lemma Grid.setCell_width (g : Grid) (x y : Int) (ch : String)
    (fg bg : Option String) : (g.setCell x y ch fg bg).width = g.width := by
  unfold Grid.setCell; split <;> rfl

lemma Grid.setCell_height (g : Grid) (x y : Int) (ch : String)
    (fg bg : Option String) : (g.setCell x y ch fg bg).height = g.height := by
  unfold Grid.setCell; split <;> rfl

lemma colorWrite_length (l : List String) (i : Nat) (c : Option String) :
    (colorWrite l i c).length = l.length := by
  unfold colorWrite; split <;> simp

lemma Grid.setCell_wellFormed {g : Grid} (hg : g.wellFormed) (x y : Int)
    (ch : String) (fg bg : Option String) :
    (g.setCell x y ch fg bg).wellFormed := by
  obtain ⟨h1, h2, h3⟩ := hg
  unfold Grid.setCell Grid.wellFormed
  split <;> simp [colorWrite_length, h1, h2, h3]

lemma Grid.setCell_oob {g : Grid} {x y : Int} (h : ¬ g.inBounds x y)
    (ch : String) (fg bg : Option String) : g.setCell x y ch fg bg = g := by
  unfold Grid.setCell; exact if_neg h

lemma Grid.getCell_oob {g : Grid} {x y : Int} (h : ¬ g.inBounds x y) :
    g.getCell x y = blankCell := by
  unfold Grid.getCell; exact if_neg h

lemma Grid.idx_toNat_lt {g : Grid} {x y : Int} (h : g.inBounds x y) :
    (g.idx x y).toNat < g.width * g.height ∧ 0 ≤ g.idx x y := by
  obtain ⟨hx0, hxw, hy0, hyh⟩ := h
  have hw : (0 : Int) < g.width := lt_of_le_of_lt hx0 hxw
  have h0 : 0 ≤ g.idx x y := by
    unfold Grid.idx
    have : (0 : Int) ≤ y * g.width := mul_nonneg hy0 (by positivity)
    omega
  constructor
  · unfold Grid.idx at h0 ⊢
    have hyy : y ≤ (g.height : Int) - 1 := by omega
    have : y * (g.width : Int) + x ≤ ((g.height : Int) - 1) * g.width + x :=
      by
        have := mul_le_mul_of_nonneg_right hyy (le_of_lt hw)
        omega
    have hlt : y * (g.width : Int) + x < g.width * g.height := by nlinarith
    omega
  · exact h0

/-- Distinct in-bounds coordinates have distinct row-major indices. -/
lemma Grid.idx_inj {g : Grid} {x y x' y' : Int} (h : g.inBounds x y)
    (h' : g.inBounds x' y') (hne : (x, y) ≠ (x', y')) :
    g.idx x y ≠ g.idx x' y' := by
  obtain ⟨hx0, hxw, hy0, hyh⟩ := h
  obtain ⟨hx0', hxw', hy0', hyh'⟩ := h'
  unfold Grid.idx
  intro heq
  have hyy : y = y' := by
    rcases lt_trichotomy y y' with hlt | heq' | hgt
    · have : y * (g.width : Int) + g.width ≤ y' * g.width := by nlinarith
      omega
    · exact heq'
    · have : y' * (g.width : Int) + g.width ≤ y * g.width := by nlinarith
      omega
  subst hyy
  have : x = x' := by omega
  exact hne (by simp [this])


/-- The stored cell triple at raw array index `i` (with the `?? default`
fallbacks of `getCell`). -/
def Grid.entry (g : Grid) (i : Nat) : Cell :=
  ⟨g.cells.getD i " ", g.fgColors.getD i "#888888", g.bgColors.getD i "#000000"⟩

lemma Grid.getCell_eq_entry {g : Grid} {x y : Int} (hb : g.inBounds x y) :
    g.getCell x y = g.entry (g.idx x y).toNat := by
  unfold Grid.getCell Grid.entry
  rw [if_pos hb]

lemma Grid.setCell_entry_ne {g : Grid} (x y : Int) {i : Nat}
    (hi : i ≠ (g.idx x y).toNat) (ch : String) (fg bg : Option String) :
    (g.setCell x y ch fg bg).entry i = g.entry i := by
  unfold Grid.setCell
  split
  · unfold Grid.entry colorWrite
    simp only
    rw [listGetDSetNe _ _ (Ne.symm hi)]
    congr 1
    · split
      · exact listGetDSetNe _ _ (Ne.symm hi)
      · rfl
    · split
      · exact listGetDSetNe _ _ (Ne.symm hi)
      · rfl
  · rfl

lemma Grid.setCell_entry_self {g : Grid} {x y : Int} (hb : g.inBounds x y)
    (hwf : g.wellFormed) (ch : String) (fg bg : Option String) :
    (g.setCell x y ch fg bg).entry (g.idx x y).toNat =
      ⟨ch,
        if jsTruthy fg then fg.getD "" else (g.entry (g.idx x y).toNat).fg,
        if jsTruthy bg then bg.getD "" else (g.entry (g.idx x y).toNat).bg⟩ :=
  by
  have hlt := (Grid.idx_toNat_lt hb).1
  unfold Grid.setCell
  rw [if_pos hb]
  unfold Grid.entry colorWrite
  simp only
  rw [listGetDSetSelf _ _ (by rw [hwf.1]; omega)]
  congr 1
  · split
    · exact listGetDSetSelf _ _ (by rw [hwf.2.1]; omega)
    · rfl
  · split
    · exact listGetDSetSelf _ _ (by rw [hwf.2.2]; omega)
    · rfl

lemma Grid.inBounds_setCell (g : Grid) (x y : Int) (ch : String)
    (fg bg : Option String) (x' y' : Int) :
    (g.setCell x y ch fg bg).inBounds x' y' ↔ g.inBounds x' y' := by
  unfold Grid.inBounds
  rw [Grid.setCell_width, Grid.setCell_height]

lemma Grid.idx_setCell (g : Grid) (x y : Int) (ch : String)
    (fg bg : Option String) (x' y' : Int) :
    (g.setCell x y ch fg bg).idx x' y' = g.idx x' y' := by
  unfold Grid.idx
  rw [Grid.setCell_width]

/-- `getCell` after `setCell` at a different coordinate is unchanged. -/
lemma Grid.getCell_setCell_ne {g : Grid} {x y x' y' : Int}
    (hne : (x', y') ≠ (x, y)) (ch : String) (fg bg : Option String) :
    (g.setCell x y ch fg bg).getCell x' y' = g.getCell x' y' := by
  by_cases hb : g.inBounds x y
  · by_cases hb' : g.inBounds x' y'
    · have hb'' : (g.setCell x y ch fg bg).inBounds x' y' :=
        (Grid.inBounds_setCell g x y ch fg bg x' y').mpr hb'
      rw [Grid.getCell_eq_entry hb'', Grid.getCell_eq_entry hb',
        Grid.idx_setCell]
      refine Grid.setCell_entry_ne x y ?_ ch fg bg
      have hidx : g.idx x' y' ≠ g.idx x y := Grid.idx_inj hb' hb hne
      have h1 := (Grid.idx_toNat_lt hb).2
      have h2 := (Grid.idx_toNat_lt hb').2
      omega
    · have hb2 : ¬ (g.setCell x y ch fg bg).inBounds x' y' := by
        rw [Grid.inBounds_setCell]; exact hb'
      rw [Grid.getCell_oob hb2, Grid.getCell_oob hb']
  · rw [Grid.setCell_oob hb]

/-- A non-empty string is truthy. -/
lemma jsTruthy_some {f : String} (hf : f ≠ "") : jsTruthy (some f) = true := by
  show (!f.isEmpty) = true
  simp [String.isEmpty]
  cases f with
  | mk l =>
    cases l with
    | nil => simp at hf
    | cons a as =>
      simp [String.endPos, String.utf8ByteSize]
      intro h
      rw [String.Pos.ext_iff] at h
      simp at h
      have := a.utf8Size_pos
      omega

/-- `getCell` after `setCell` at the written coordinate, when both colors
are supplied and truthy: the full cell is replaced. -/
lemma Grid.getCell_setCell_self {g : Grid} {x y : Int} (hb : g.inBounds x y)
    (hwf : g.wellFormed) (ch : String) {f b : String} (hf : f ≠ "")
    (hbg : b ≠ "") :
    (g.setCell x y ch (some f) (some b)).getCell x y = ⟨ch, f, b⟩ := by
  have hb' : (g.setCell x y ch (some f) (some b)).inBounds x y :=
    (Grid.inBounds_setCell g x y ch _ _ x y).mpr hb
  rw [Grid.getCell_eq_entry hb', Grid.idx_setCell,
    Grid.setCell_entry_self hb hwf]
  rw [if_pos (jsTruthy_some hf), if_pos (jsTruthy_some hbg)]
  rfl

/-! ## Coordinate enumeration lemmas -/

lemma gridCoords_zero (w : Nat) : gridCoords w 0 = [] := rfl

lemma gridCoords_succ (w h : Nat) :
    gridCoords w (h+1) = gridCoords w h
      ++ (List.range w).map (fun x => (Int.ofNat x, Int.ofNat h)) := by
  unfold gridCoords
  rw [List.range_succ, List.map_append, List.flatten_append]
  simp

lemma length_gridCoords (w h : Nat) : (gridCoords w h).length = h * w := by
  induction h with
  | zero => rw [gridCoords_zero]; simp
  | succ n ih =>
    rw [gridCoords_succ, List.length_append, ih]
    simp [Nat.succ_mul]

lemma mem_gridCoords {w h : Nat} (c : Int × Int) :
    c ∈ gridCoords w h ↔
      0 ≤ c.1 ∧ c.1 < (w : Int) ∧ 0 ≤ c.2 ∧ c.2 < (h : Int) := by
  induction h with
  | zero =>
    rw [gridCoords_zero]
    simp only [List.not_mem_nil, false_iff]
    omega
  | succ n ih =>
    rw [gridCoords_succ, List.mem_append, ih]
    constructor
    · rintro (⟨h1, h2, h3, h4⟩ | hrow)
      · refine ⟨h1, h2, h3, by push_cast; omega⟩
      · obtain ⟨x, hx, hc⟩ := List.mem_map.mp hrow
        have hx' := List.mem_range.mp hx
        rw [← hc]
        refine ⟨?_, ?_, ?_, ?_⟩ <;> (simp [Int.ofNat_eq_coe]; try omega)
    · rintro ⟨h1, h2, h3, h4⟩
      by_cases hn : c.2 = (n : Int)
      · right
        apply List.mem_map.mpr
        refine ⟨c.1.toNat, List.mem_range.mpr (by omega), ?_⟩
        have hfst : Int.ofNat c.1.toNat = c.1 := by
          simp [Int.ofNat_eq_coe, Int.toNat_of_nonneg h1]
        have hsnd : Int.ofNat n = c.2 := by
          simp [Int.ofNat_eq_coe, hn]
        rw [Prod.ext_iff]
        exact ⟨hfst, hsnd⟩
      · refine Or.inl ⟨h1, h2, h3, by push_cast at h4 ⊢; omega⟩

lemma nodup_gridCoords (w h : Nat) : (gridCoords w h).Nodup := by
  induction h with
  | zero => exact List.nodup_nil
  | succ n ih =>
    rw [gridCoords_succ]
    refine List.Nodup.append ih ?_ ?_
    · refine List.Nodup.map ?_ (List.nodup_range w)
      intro a b hab
      have := congrArg Prod.fst hab
      simpa [Int.ofNat_eq_coe] using this
    · intro a ha hb
      have h1 := (mem_gridCoords a).mp ha
      obtain ⟨x, _, hc⟩ := List.mem_map.mp hb
      rw [← hc] at h1
      exact lt_irrefl _ h1.2.2.2

lemma getElem?_gridCoords {w : Nat} (x y : Nat) :
    ∀ h : Nat, x < w → y < h →
      (gridCoords w h)[y * w + x]? = some (Int.ofNat x, Int.ofNat y) := by
  intro h
  induction h with
  | zero => omega
  | succ n ih =>
    intro hx hy
    rw [gridCoords_succ]
    by_cases hy' : y < n
    · rw [List.getElem?_append_left
        (by rw [length_gridCoords]
            calc y * w + x < y * w + w := by omega
              _ ≤ n * w := by nlinarith)]
      exact ih hx hy'
    · have hyn : y = n := by omega
      subst hyn
      rw [List.getElem?_append_right (by rw [length_gridCoords]; omega)]
      rw [length_gridCoords]
      have hxx : y * w + x - y * w = x := by omega
      rw [hxx, List.getElem?_map, List.getElem?_range hx]
      rfl

/-- The snapshot list entry at the row-major index of an in-bounds source
coordinate is that source's `getCell`. -/
lemma gridSnapshot_get {g : Grid} {sx sy : Int} (hx0 : 0 ≤ sx)
    (hxw : sx < (g.width : Int)) (hy0 : 0 ≤ sy)
    (hyh : sy < (g.height : Int)) :
    (gridSnapshot g).get? (sy * (g.width : Int) + sx).toNat =
      some (g.getCell sx sy) := by
  have hnn : (0 : Int) ≤ sy * g.width := mul_nonneg hy0 (by positivity)
  have hidx : (sy * (g.width : Int) + sx).toNat
      = sy.toNat * g.width + sx.toNat := by
    have h1 : sy * (g.width : Int) = ((sy.toNat * g.width : Nat) : Int) := by
      push_cast
      rw [Int.toNat_of_nonneg hy0]
    omega
  unfold gridSnapshot
  rw [List.get?_eq_getElem?, List.getElem?_map, hidx,
    getElem?_gridCoords sx.toNat sy.toNat g.height (by omega) (by omega)]
  simp only [Option.map_some']
  have hfst : Int.ofNat sx.toNat = sx := by
    simp [Int.ofNat_eq_coe, Int.toNat_of_nonneg hx0]
  have hsnd : Int.ofNat sy.toNat = sy := by
    simp [Int.ofNat_eq_coe, Int.toNat_of_nonneg hy0]
  rw [hfst, hsnd]

/-! ## A write-once fold characterization

Each layer's double loop visits every coordinate exactly once and writes
only the visited cell; the generic lemma below characterizes such folds
cell-for-cell. -/

lemma foldl_write_once (step : Grid → (Int × Int) → Grid)
    (tgt : (Int × Int) → Cell → Cell) (inv : Grid → Prop)
    (L : List (Int × Int)) (g : Grid)
    (hPres : ∀ g' c, c ∈ L → inv g' → inv (step g' c))
    (hLoc : ∀ g' c c', c ∈ L → c' ≠ c →
      (step g' c).getCell c'.1 c'.2 = g'.getCell c'.1 c'.2)
    (hSelf : ∀ g' c, c ∈ L → inv g' →
      (step g' c).getCell c.1 c.2 = tgt c (g'.getCell c.1 c.2))
    (hNodup : L.Nodup) (hInv : inv g) :
    ∀ c, (L.foldl step g).getCell c.1 c.2 =
      if c ∈ L then tgt c (g.getCell c.1 c.2) else g.getCell c.1 c.2 := by
  induction L generalizing g with
  | nil => intro c; simp
  | cons a L ih =>
    intro c
    rw [List.foldl_cons]
    have hN := List.nodup_cons.mp hNodup
    have hrec := ih (step g a)
      (fun g' c' hc' => hPres g' c' (List.mem_cons_of_mem a hc'))
      (fun g' c1 c' hc1 => hLoc g' c1 c' (List.mem_cons_of_mem a hc1))
      (fun g' c1 hc1 => hSelf g' c1 (List.mem_cons_of_mem a hc1))
      hN.2 (hPres g a (List.mem_cons_self a L) hInv) c
    by_cases hcL : c ∈ L
    · rw [hrec, if_pos hcL, if_pos (List.mem_cons_of_mem a hcL)]
      have hca : c ≠ a := fun h => hN.1 (h ▸ hcL)
      rw [hLoc g a c (List.mem_cons_self a L) hca]
    · rw [hrec, if_neg hcL]
      by_cases hceq : c = a
      · subst hceq
        rw [if_pos (List.mem_cons_self c L)]
        exact hSelf g c (List.mem_cons_self c L) hInv
      · rw [if_neg (by simp [hceq, hcL] : ¬ c ∈ a :: L)]
        exact hLoc g a c (List.mem_cons_self a L) hceq

/-- All stored colors of the grid are non-empty strings — true of every
grid the program ever builds (`clear` defaults and layer writes are
non-empty hex strings). -/
def Grid.colorsOK (g : Grid) : Prop :=
  (∀ s ∈ g.fgColors, s ≠ "") ∧ (∀ s ∈ g.bgColors, s ≠ "")

instance (g : Grid) : Decidable g.colorsOK := by
  unfold Grid.colorsOK; infer_instance

lemma listGetD_mem_or_default {α : Type} (l : List α) (i : Nat) (d : α) :
    l.getD i d ∈ l ∨ l.getD i d = d := by
  by_cases h : i < l.length
  · left
    rw [List.getD, List.get?_eq_getElem?, List.getElem?_eq_getElem h]
    exact List.getElem_mem h
  · right
    rw [List.getD, List.get?_eq_getElem?, List.getElem?_eq_none (by omega)]
    rfl

lemma Grid.getCell_colors_ne {g : Grid} (hc : g.colorsOK) (x y : Int) :
    (g.getCell x y).fg ≠ "" ∧ (g.getCell x y).bg ≠ "" := by
  unfold Grid.getCell
  split
  · constructor
    · rcases listGetD_mem_or_default g.fgColors (g.idx x y).toNat "#888888"
        with h | h
      · exact hc.1 _ h
      · show g.fgColors.getD (g.idx x y).toNat "#888888" ≠ ""
        rw [List.getD, List.get?_eq_getElem?] at h ⊢
        rw [h]
        simp
    · rcases listGetD_mem_or_default g.bgColors (g.idx x y).toNat "#000000"
        with h | h
      · exact hc.2 _ h
      · show g.bgColors.getD (g.idx x y).toNat "#000000" ≠ ""
        rw [List.getD, List.get?_eq_getElem?] at h ⊢
        rw [h]
        simp
  · exact ⟨by simp [blankCell], by simp [blankCell]⟩

/-! ## Backward-warp characterization -/

lemma warpStep_width (ops : MathOps) (snap : List Cell) (motion : String)
    (time seed strength : ℚ) (g : Grid) (c : Int × Int) :
    (warpStep ops snap motion time seed strength g c).width = g.width := by
  unfold warpStep
  dsimp only
  split
  · split
    · rw [Grid.setCell_width]
    · rfl
  · rfl

lemma warpStep_height (ops : MathOps) (snap : List Cell) (motion : String)
    (time seed strength : ℚ) (g : Grid) (c : Int × Int) :
    (warpStep ops snap motion time seed strength g c).height = g.height := by
  unfold warpStep
  dsimp only
  split
  · split
    · rw [Grid.setCell_height]
    · rfl
  · rfl

lemma warpStep_wellFormed (ops : MathOps) (snap : List Cell)
    (motion : String) (time seed strength : ℚ) {g : Grid}
    (hwf : g.wellFormed) (c : Int × Int) :
    (warpStep ops snap motion time seed strength g c).wellFormed := by
  unfold warpStep
  dsimp only
  split
  · split
    · exact Grid.setCell_wellFormed hwf _ _ _ _ _
    · exact hwf
  · exact hwf

lemma warpStep_getCell_ne (ops : MathOps) (snap : List Cell)
    (motion : String) (time seed strength : ℚ) (g : Grid)
    {c c' : Int × Int} (hne : c' ≠ c) :
    (warpStep ops snap motion time seed strength g c).getCell c'.1 c'.2 =
      g.getCell c'.1 c'.2 := by
  unfold warpStep
  dsimp only
  split
  · split
    · exact Grid.getCell_setCell_ne (by simpa using hne) _ _ _
    · rfl
  · rfl

lemma warpStep_getCell_self (ops : MathOps) (g0 g' : Grid) (motion : String)
    (time seed strength : ℚ) (hw : g'.width = g0.width)
    (hh : g'.height = g0.height) (hwf' : g'.wellFormed)
    (hok : g0.colorsOK) (c : Int × Int)
    (hb : 0 ≤ c.1 ∧ c.1 < (g0.width : Int) ∧ 0 ≤ c.2 ∧
      c.2 < (g0.height : Int)) :
    (warpStep ops (gridSnapshot g0) motion time seed strength g' c).getCell
        c.1 c.2 =
      (if 0 ≤ jsRound ((c.1 : ℚ) + (computeOffset ops c.1 c.2 g0.width
            g0.height motion time seed strength).1) ∧
          jsRound ((c.1 : ℚ) + (computeOffset ops c.1 c.2 g0.width g0.height
            motion time seed strength).1) < (g0.width : Int) ∧
          0 ≤ jsRound ((c.2 : ℚ) + (computeOffset ops c.1 c.2 g0.width
            g0.height motion time seed strength).2) ∧
          jsRound ((c.2 : ℚ) + (computeOffset ops c.1 c.2 g0.width g0.height
            motion time seed strength).2) < (g0.height : Int)
       then g0.getCell
          (jsRound ((c.1 : ℚ) + (computeOffset ops c.1 c.2 g0.width g0.height
            motion time seed strength).1))
          (jsRound ((c.2 : ℚ) + (computeOffset ops c.1 c.2 g0.width g0.height
            motion time seed strength).2))
       else g'.getCell c.1 c.2) := by
  unfold warpStep
  dsimp only
  rw [hw, hh]
  by_cases hcond : 0 ≤ jsRound ((c.1 : ℚ) + (computeOffset ops c.1 c.2
        g0.width g0.height motion time seed strength).1) ∧
      jsRound ((c.1 : ℚ) + (computeOffset ops c.1 c.2 g0.width g0.height
        motion time seed strength).1) < (g0.width : Int) ∧
      0 ≤ jsRound ((c.2 : ℚ) + (computeOffset ops c.1 c.2 g0.width g0.height
        motion time seed strength).2) ∧
      jsRound ((c.2 : ℚ) + (computeOffset ops c.1 c.2 g0.width g0.height
        motion time seed strength).2) < (g0.height : Int)
  · rw [if_pos hcond, if_pos hcond,
      gridSnapshot_get hcond.1 hcond.2.1 hcond.2.2.1 hcond.2.2.2]
    have hbb : g'.inBounds c.1 c.2 := by
      unfold Grid.inBounds
      rw [hw, hh]
      exact hb
    have hcol := Grid.getCell_colors_ne hok
      (jsRound ((c.1 : ℚ) + (computeOffset ops c.1 c.2 g0.width g0.height
        motion time seed strength).1))
      (jsRound ((c.2 : ℚ) + (computeOffset ops c.1 c.2 g0.width g0.height
        motion time seed strength).2))
    rw [Grid.getCell_setCell_self hbb hwf' _ hcol.1 hcol.2]
  · rw [if_neg hcond, if_neg hcond]

/-- Cell-level characterization of the whole backward-warp loop: each
in-bounds destination receives the pre-warp snapshot content of its rounded
source when that source is in bounds, and keeps its own previous content
otherwise. -/
lemma warp_foldl_getCell (ops : MathOps) (g : Grid) (motion : String)
    (time seed strength : ℚ) (hwf : g.wellFormed) (hok : g.colorsOK)
    {x y : Int} (hb : g.inBounds x y) :
    ((gridCoords g.width g.height).foldl
        (warpStep ops (gridSnapshot g) motion time seed strength) g).getCell
        x y =
      (if 0 ≤ jsRound ((x : ℚ) + (computeOffset ops x y g.width g.height
            motion time seed strength).1) ∧
          jsRound ((x : ℚ) + (computeOffset ops x y g.width g.height motion
            time seed strength).1) < (g.width : Int) ∧
          0 ≤ jsRound ((y : ℚ) + (computeOffset ops x y g.width g.height
            motion time seed strength).2) ∧
          jsRound ((y : ℚ) + (computeOffset ops x y g.width g.height motion
            time seed strength).2) < (g.height : Int)
       then g.getCell
          (jsRound ((x : ℚ) + (computeOffset ops x y g.width g.height motion
            time seed strength).1))
          (jsRound ((y : ℚ) + (computeOffset ops x y g.width g.height motion
            time seed strength).2))
       else g.getCell x y) := by
  have hmem : ((x, y) : Int × Int) ∈ gridCoords g.width g.height :=
    (mem_gridCoords _).mpr ⟨hb.1, hb.2.1, hb.2.2.1, hb.2.2.2⟩
  have hchar := foldl_write_once
    (warpStep ops (gridSnapshot g) motion time seed strength)
    (fun c old =>
      if 0 ≤ jsRound ((c.1 : ℚ) + (computeOffset ops c.1 c.2 g.width
            g.height motion time seed strength).1) ∧
          jsRound ((c.1 : ℚ) + (computeOffset ops c.1 c.2 g.width g.height
            motion time seed strength).1) < (g.width : Int) ∧
          0 ≤ jsRound ((c.2 : ℚ) + (computeOffset ops c.1 c.2 g.width
            g.height motion time seed strength).2) ∧
          jsRound ((c.2 : ℚ) + (computeOffset ops c.1 c.2 g.width g.height
            motion time seed strength).2) < (g.height : Int)
       then g.getCell
          (jsRound ((c.1 : ℚ) + (computeOffset ops c.1 c.2 g.width g.height
            motion time seed strength).1))
          (jsRound ((c.2 : ℚ) + (computeOffset ops c.1 c.2 g.width g.height
            motion time seed strength).2))
       else old)
    (fun g' => g'.width = g.width ∧ g'.height = g.height ∧ g'.wellFormed)
    (gridCoords g.width g.height) g
    (fun g' c _ hinv =>
      ⟨(warpStep_width ops _ motion time seed strength g' c).trans hinv.1,
        (warpStep_height ops _ motion time seed strength g' c).trans
          hinv.2.1,
        warpStep_wellFormed ops _ motion time seed strength hinv.2.2 c⟩)
    (fun g' c c' _ hne =>
      warpStep_getCell_ne ops _ motion time seed strength g' hne)
    (fun g' c hc hinv =>
      warpStep_getCell_self ops g g' motion time seed strength hinv.1
        hinv.2.1 hinv.2.2 hok c
        (by
          have := (mem_gridCoords c).mp hc
          exact this))
    (nodup_gridCoords g.width g.height)
    ⟨rfl, rfl, hwf⟩
    (x, y)
  rw [hchar, if_pos hmem]

/-! ## Auxiliary facts for the claim theorems -/

lemma foldl_grid_preserves {α : Type} (P : Grid → Prop)
    (step : Grid → α → Grid) (hstep : ∀ g a, P g → P (step g a)) :
    ∀ (L : List α) (g : Grid), P g → P (L.foldl step g) := by
  intro L
  induction L with
  | nil => intro g hg; exact hg
  | cons a L ih =>
    intro g hg
    rw [List.foldl_cons]
    exact ih (step g a) (hstep g a hg)

lemma Grid.fillRect_dims_wf (g : Grid) (x0 y0 w h : Int) (ch : String)
    (fg bg : Option String) :
    (g.fillRect x0 y0 w h ch fg bg).width = g.width ∧
    (g.fillRect x0 y0 w h ch fg bg).height = g.height ∧
    (g.wellFormed → (g.fillRect x0 y0 w h ch fg bg).wellFormed) := by
  unfold Grid.fillRect
  have key := foldl_grid_preserves
    (fun g' => g'.width = g.width ∧ g'.height = g.height ∧
      (g.wellFormed → g'.wellFormed))
    (fun gy j =>
      (List.range w.toNat).foldl
        (fun gx i => gx.setCell (x0 + (i : Int)) (y0 + (j : Int)) ch fg bg)
        gy)
    (fun gy j hgy =>
      foldl_grid_preserves
        (fun g' => g'.width = g.width ∧ g'.height = g.height ∧
          (g.wellFormed → g'.wellFormed))
        (fun gx i => gx.setCell (x0 + (i : Int)) (y0 + (j : Int)) ch fg bg)
        (fun gx i hgx =>
          ⟨(Grid.setCell_width gx _ _ ch fg bg).trans hgx.1,
            (Grid.setCell_height gx _ _ ch fg bg).trans hgx.2.1,
            fun hg => Grid.setCell_wellFormed (hgx.2.2 hg) _ _ ch fg bg⟩)
        (List.range w.toNat) gy hgy)
    (List.range h.toNat) g ⟨rfl, rfl, fun hg => hg⟩
  exact key

lemma Grid.clear_eq_of_dims {g1 g2 : Grid} (hw : g1.width = g2.width)
    (hh : g1.height = g2.height) (hwf1 : g1.wellFormed)
    (hwf2 : g2.wellFormed) : g1.clear = g2.clear := by
  have hlen1 : g1.cells.length = g2.cells.length := by
    rw [hwf1.1, hwf2.1, hw, hh]
  have hlen2 : g1.fgColors.length = g2.fgColors.length := by
    rw [hwf1.2.1, hwf2.2.1, hw, hh]
  have hlen3 : g1.bgColors.length = g2.bgColors.length := by
    rw [hwf1.2.2, hwf2.2.2, hw, hh]
  unfold Grid.clear Grid.clearWith
  simp only [Grid.mk.injEq]
  refine ⟨hw, hh, ?_, ?_, ?_⟩ <;>
    rw [List.map_const', List.map_const'] <;>
    simp [hlen1, hlen2, hlen3]

/-- A fixed scene spec with distortion severity "none", used to instantiate
universally quantified theorems in closed statements. -/
def specNone : DreamSpec :=
  ⟨["X"], ["#aabbcc"], ["x"], "static", "none", "medium", 1/2, "calm"⟩

/-- A fixed scene spec with distortion severity "extreme". -/
def specExtreme : DreamSpec :=
  ⟨["X"], ["#aabbcc"], ["x"], "static", "extreme", "medium", 1/2, "calm"⟩

/-! ## Claim theorems -/

/-- C4: `Grid.getCell` at any out-of-bounds coordinate returns the fixed
blank cell `{char: " ", fg: "#888888", bg: "#000000"}`, `setCell` out of
bounds leaves the grid completely unchanged, and the grid operations are
total and structure-preserving for arbitrary arguments (`clear` and
`fillRect` keep the dimensions and the length invariant, so no operation
can fail). -/
theorem C4_grid_bounds_absorbing :
    (∀ (g : Grid) (x y : Int), ¬ g.inBounds x y →
      g.getCell x y = blankCell ∧
      ∀ (ch : String) (fg bg : Option String), g.setCell x y ch fg bg = g) ∧
    (∀ (g : Grid) (x0 y0 w h : Int) (ch : String) (fg bg : Option String),
      (g.fillRect x0 y0 w h ch fg bg).width = g.width ∧
      (g.fillRect x0 y0 w h ch fg bg).height = g.height ∧
      (g.wellFormed → (g.fillRect x0 y0 w h ch fg bg).wellFormed)) ∧
    (∀ (g : Grid) (ch fg bg : String),
      (g.clearWith ch fg bg).width = g.width ∧
      (g.clearWith ch fg bg).height = g.height ∧
      (g.wellFormed → (g.clearWith ch fg bg).wellFormed)) := by
  refine ⟨?_, ?_, ?_⟩
  · intro g x y hob
    exact ⟨Grid.getCell_oob hob, fun ch fg bg => Grid.setCell_oob hob ch fg bg⟩
  · intro g x0 y0 w h ch fg bg
    exact Grid.fillRect_dims_wf g x0 y0 w h ch fg bg
  · intro g ch fg bg
    refine ⟨rfl, rfl, fun hg => ?_⟩
    unfold Grid.clearWith Grid.wellFormed at *
    simpa using hg

/-- C4 witness: the general theorem applied at concrete out-of-bounds
coordinates on a concrete 2×2 grid. -/
theorem C4_grid_bounds_absorbing_witness :
    (Grid.make 2 2).getCell (-1) 0 = blankCell ∧
    (Grid.make 2 2).setCell 5 7 "X" (some "#ffffff") none = Grid.make 2 2 ∧
    ((Grid.make 2 2).fillRect (-3) (-3) 10 10 "#" none none).width = 2 ∧
    ((Grid.make 2 2).fillRect (-3) (-3) 10 10 "#" none none).wellFormed :=
  ⟨(C4_grid_bounds_absorbing.1 (Grid.make 2 2) (-1) 0 (by decide)).1,
    (C4_grid_bounds_absorbing.1 (Grid.make 2 2) 5 7 (by decide)).2 "X"
      (some "#ffffff") none,
    (C4_grid_bounds_absorbing.2.1 (Grid.make 2 2) (-3) (-3) 10 10 "#" none
      none).1,
    (C4_grid_bounds_absorbing.2.1 (Grid.make 2 2) (-3) (-3) 10 10 "#" none
      none).2.2 (by decide)⟩

/-- C10: for an in-bounds `setCell` the glyph is always overwritten, while a
color argument that is the empty string `""` — exactly like an omitted
one — leaves the stored color unchanged; a color is updated only when the
argument is a non-empty string. -/
theorem C10_setCell_empty_color_preserved :
    ∀ (g : Grid) (x y : Int), g.wellFormed → g.inBounds x y →
      ∀ (ch : String) (fg bg : Option String),
      ((g.setCell x y ch fg bg).getCell x y).char = ch ∧
      ((g.setCell x y ch (some "") bg).getCell x y).fg =
        (g.getCell x y).fg ∧
      ((g.setCell x y ch none bg).getCell x y).fg = (g.getCell x y).fg ∧
      (∀ s : String, s ≠ "" →
        ((g.setCell x y ch (some s) bg).getCell x y).fg = s) ∧
      ((g.setCell x y ch fg (some "")).getCell x y).bg =
        (g.getCell x y).bg ∧
      ((g.setCell x y ch fg none).getCell x y).bg = (g.getCell x y).bg ∧
      (∀ s : String, s ≠ "" →
        ((g.setCell x y ch fg (some s)).getCell x y).bg = s) := by
  intro g x y hwf hb ch fg bg
  have key : ∀ (fg' bg' : Option String),
      (g.setCell x y ch fg' bg').getCell x y =
        ⟨ch,
          if jsTruthy fg' then fg'.getD ""
            else (g.entry (g.idx x y).toNat).fg,
          if jsTruthy bg' then bg'.getD ""
            else (g.entry (g.idx x y).toNat).bg⟩ := by
    intro fg' bg'
    rw [Grid.getCell_eq_entry
        ((Grid.inBounds_setCell g x y ch fg' bg' x y).mpr hb),
      Grid.idx_setCell, Grid.setCell_entry_self hb hwf]
  have hget : g.getCell x y = g.entry (g.idx x y).toNat :=
    Grid.getCell_eq_entry hb
  refine ⟨?_, ?_, ?_, ?_, ?_, ?_, ?_⟩
  · rw [key]
  · rw [key, hget]
    simp [jsTruthy, String.isEmpty]
  · rw [key, hget]
    simp [jsTruthy]
  · intro s hs
    rw [key]
    simp [jsTruthy_some hs]
  · rw [key, hget]
    simp [jsTruthy, String.isEmpty]
  · rw [key, hget]
    simp [jsTruthy]
  · intro s hs
    rw [key]
    simp [jsTruthy_some hs]

/-- C10 witness: on a concrete 1×1 grid, writing with `fg = ""` keeps the
cleared foreground `"#888888"` while the glyph is replaced, and a non-empty
foreground is stored. -/
theorem C10_setCell_empty_color_preserved_witness :
    (((Grid.make 1 1).setCell 0 0 "A" (some "") none).getCell 0 0).fg =
      ((Grid.make 1 1).getCell 0 0).fg ∧
    (((Grid.make 1 1).setCell 0 0 "A" (some "") (some "")).getCell 0 0).char
      = "A" ∧
    (((Grid.make 1 1).setCell 0 0 "A" (some "#112233") none).getCell
      0 0).fg = "#112233" :=
  ⟨(C10_setCell_empty_color_preserved (Grid.make 1 1) 0 0 (by decide)
      (by decide) "A" (some "") none).2.1,
    (C10_setCell_empty_color_preserved (Grid.make 1 1) 0 0 (by decide)
      (by decide) "A" (some "") (some "")).1,
    (C10_setCell_empty_color_preserved (Grid.make 1 1) 0 0 (by decide)
      (by decide) "A" (some "#112233") none).2.2.2.1 "#112233" (by decide)⟩

lemma stop_tick_skip (l : AnimationLoop) (d : ℚ) :
    (l.stop).tick d = (none, l.stop) := by
  unfold AnimationLoop.tick AnimationLoop.stop
  simp

/-- C3: `tick` returns the skip signal (`none`) and leaves the loop
unchanged whenever the state is not running; when running it adds
`deltaMs/1000` to the elapsed time and returns the new value; `stop()`
forces the elapsed time to 0 and any further tick sequence keeps returning
the skip signal and leaves the loop stopped (until a `start()`). -/
theorem C3_tick_state_machine :
    (∀ (l : AnimationLoop) (d : ℚ), l.state ≠ .running →
      (l.tick d).1 = none ∧ (l.tick d).2 = l) ∧
    (∀ (l : AnimationLoop) (d : ℚ), l.state = .running →
      (l.tick d).1 = some (l.elapsedTime + d / 1000) ∧
      (l.tick d).2.elapsedTime = l.elapsedTime + d / 1000) ∧
    (∀ l : AnimationLoop, (l.stop).elapsedTime = 0) ∧
    (∀ (l : AnimationLoop) (ds : List ℚ) (d : ℚ),
      (l.stop).runTicks ds = l.stop ∧
      (((l.stop).runTicks ds).tick d).1 = none) := by
  refine ⟨?_, ?_, ?_, ?_⟩
  · intro l d h
    unfold AnimationLoop.tick
    rw [if_neg h]
    exact ⟨rfl, rfl⟩
  · intro l d h
    unfold AnimationLoop.tick
    rw [if_pos h]
    exact ⟨rfl, rfl⟩
  · intro l
    rfl
  · intro l ds d
    have hfix : (l.stop).runTicks ds = l.stop := by
      unfold AnimationLoop.runTicks
      induction ds with
      | nil => rfl
      | cons a ds ih =>
        rw [List.foldl_cons, stop_tick_skip]
        exact ih
    refine ⟨hfix, ?_⟩
    rw [hfix, stop_tick_skip]

/-- C3 witness: a concrete run — pause then tick skips and preserves the
elapsed time; a running tick advances by 100/1000; after stop, ticking
through `[100, 50]` stays stopped and skips. -/
theorem C3_tick_state_machine_witness :
    ((((AnimationLoop.init 13).start.tick 100).2.pause.tick 100).1 = none ∧
      (((AnimationLoop.init 13).start.tick 100).2.pause.tick 100).2 =
        ((AnimationLoop.init 13).start.tick 100).2.pause) ∧
    (((AnimationLoop.init 13).start.tick 100).1 = some (0 + 100 / 1000)) ∧
    ((AnimationLoop.init 13).start.stop).elapsedTime = 0 ∧
    ((((AnimationLoop.init 13).start.stop).runTicks [100, 50]).tick 7).1 =
      none :=
  ⟨C3_tick_state_machine.1 ((AnimationLoop.init 13).start.tick 100).2.pause
      100 (by decide),
    (C3_tick_state_machine.2.1 (AnimationLoop.init 13).start 100
      (by decide)).1,
    C3_tick_state_machine.2.2.1 (AnimationLoop.init 13).start,
    (C3_tick_state_machine.2.2.2 (AnimationLoop.init 13).start [100, 50]
      7).2⟩

/-- C5 counterexample: the constructor stores its argument verbatim, so
`new AnimationLoop(100)` reports fps 100, outside [1, 60] — the claimed
invariant fails after construction with an arbitrary numeric argument. -/
theorem C5_fps_invariant_counterexample :
    (AnimationLoop.init 100).getFps = 100 ∧
    ¬ ((AnimationLoop.init 100).getFps ≤ 60) := by
  constructor
  · rfl
  · decide

/-- C5 (amended): `setFps` clamps its argument into [1, 60] (and preserves
integrality of integer arguments), so fps stays in range across any
sequence of `setFps` calls; the constructor itself does not clamp — it
stores its argument unchanged, and the default construction gives 13,
which is in range. -/
theorem C5_fps_clamped_by_setFps :
    (∀ (l : AnimationLoop) (f : ℚ),
      1 ≤ (l.setFps f).getFps ∧ (l.setFps f).getFps ≤ 60) ∧
    (∀ (l : AnimationLoop) (n : Int),
      (l.setFps (n : ℚ)).getFps = ((max 1 (min 60 n) : Int) : ℚ)) ∧
    (∀ (l : AnimationLoop) (f : ℚ), (AnimationLoop.init f).getFps = f ∧
      l.getFps = l.fps) ∧
    (AnimationLoop.init 13).getFps = 13 := by
  refine ⟨?_, ?_, fun l f => ⟨rfl, rfl⟩, rfl⟩
  · intro l f
    constructor
    · exact le_max_left 1 _
    · exact max_le (by norm_num) (min_le_left 60 f)
  · intro l n
    show max 1 (min 60 (n : ℚ)) = ((max 1 (min 60 n) : Int) : ℚ)
    push_cast
    rfl

/-- C9: `fpsFromTempo` is `Math.round(baseFps × multiplier)` with the fixed
multiplier table frozen 0.3, slow 0.6, medium 1.0, fast 1.5, frantic 2.2
(and multiplier 1.0 for an unknown tempo), and in particular
`fpsFromTempo("medium", 10) = 10`, `fpsFromTempo("frantic", 10) = 22`,
`fpsFromTempo("frozen", 10) = 3`. -/
theorem C9_fpsFromTempo_table :
    (∀ b : ℚ, AnimationLoop.fpsFromTempo "frozen" b = jsRound (b * (3/10))) ∧
    (∀ b : ℚ, AnimationLoop.fpsFromTempo "slow" b = jsRound (b * (6/10))) ∧
    (∀ b : ℚ, AnimationLoop.fpsFromTempo "medium" b = jsRound (b * 1)) ∧
    (∀ b : ℚ, AnimationLoop.fpsFromTempo "fast" b = jsRound (b * (3/2))) ∧
    (∀ b : ℚ, AnimationLoop.fpsFromTempo "frantic" b =
      jsRound (b * (11/5))) ∧
    AnimationLoop.fpsFromTempo "medium" 10 = 10 ∧
    AnimationLoop.fpsFromTempo "frantic" 10 = 22 ∧
    AnimationLoop.fpsFromTempo "frozen" 10 = 3 :=
  ⟨fun b => rfl, fun b => rfl, fun b => rfl, fun b => rfl, fun b => rfl,
    by norm_num [AnimationLoop.fpsFromTempo, tempoFpsMultiplier, jsRound],
    by norm_num [AnimationLoop.fpsFromTempo, tempoFpsMultiplier, jsRound],
    by norm_num [AnimationLoop.fpsFromTempo, tempoFpsMultiplier, jsRound]⟩

/-- C6 counterexample: the hash multiply is the plain JS `*` (a float64
multiplication) followed by `| 0`, not `Math.imul`; the product magnitude
exceeds 2^53, so float rounding loses its low bits before truncation.
Already on the single-character string "b" the code yields 418632220 while
the exact wrapping 32-bit FNV-1a multiply described by the spec yields
418632219. -/
theorem C6_seedFromText_counterexample :
    seedFromText "b" = 418632220 ∧ fnvSpecSeed "b" = 418632219 ∧
    seedFromText "b" ≠ fnvSpecSeed "b" := by
  refine ⟨by decide, by decide, by decide⟩

/-- C6 (amended): `seedFromText` is a pure function returning a
non-negative integer; it folds each character code into the accumulator
via XOR starting from the FNV offset basis, but the multiply by the FNV
prime is a float64 multiply truncated to 32 bits, which agrees with the
exact wrapping 32-bit multiply only when no float64 rounding occurs (for
example on "a", but not on "b"). -/
theorem C6_seedFromText_pure_nonneg :
    (∀ s : String, 0 ≤ seedFromText s) ∧
    (∀ s t : String, s = t → seedFromText s = seedFromText t) ∧
    seedFromText "a" = fnvSpecSeed "a" := by
  refine ⟨?_, ?_, by decide⟩
  · intro s
    exact abs_nonneg _
  · intro s t h
    rw [h]

/-- C6 witness: the amended theorem applied at the concrete string
"dream". -/
theorem C6_seedFromText_pure_nonneg_witness :
    0 ≤ seedFromText "dream" ∧
    seedFromText "dream" = seedFromText "dream" :=
  ⟨C6_seedFromText_pure_nonneg.1 "dream",
    C6_seedFromText_pure_nonneg.2.1 "dream" "dream" rfl⟩

/-- C2: with severity "none" the strength is 0, the distortion layer
returns without touching the grid, and `renderFrame` equals running only
the art and noise layers on the cleared grid; more generally
`DistortionLayer.apply` is the identity whenever the mapped strength
is ≤ 0. -/
theorem C2_none_distortion_noop (ops : MathOps) (spec : DreamSpec)
    (time seed dt : ℚ) (g : Grid) :
    getStrength "none" = 0 ∧
    (spec.distortion = "none" →
      renderFrame ops spec time seed dt g =
        NoiseLayer.apply ops
          (AsciiArtLayer.apply ops g.clear spec time seed dt)
          spec time seed dt) ∧
    (getStrength spec.distortion ≤ 0 →
      DistortionLayer.apply ops g spec time seed dt = g) := by
  have hid : ∀ (g' : Grid), getStrength spec.distortion ≤ 0 →
      DistortionLayer.apply ops g' spec time seed dt = g' := by
    intro g' h
    unfold DistortionLayer.apply
    dsimp only
    rw [if_pos h]
  refine ⟨rfl, ?_, hid g⟩
  intro h
  unfold renderFrame
  exact hid _ (by rw [h]; norm_num [getStrength])

/-- C2 witness: the theorem applied to a concrete spec with distortion
"none" on a concrete grid and the all-zero transcendental model. -/
theorem C2_none_distortion_noop_witness :
    renderFrame zeroOps specNone 0 0 0 (Grid.make 2 2) =
      NoiseLayer.apply zeroOps
        (AsciiArtLayer.apply zeroOps (Grid.make 2 2).clear specNone 0 0 0)
        specNone 0 0 0 ∧
    DistortionLayer.apply zeroOps (Grid.make 2 2) specNone 0 0 0 =
      Grid.make 2 2 :=
  ⟨(C2_none_distortion_noop zeroOps specNone 0 0 0 (Grid.make 2 2)).2.1 rfl,
    (C2_none_distortion_noop zeroOps specNone 0 0 0 (Grid.make 2 2)).2.2
      (by norm_num [specNone, getStrength])⟩

/-- C1: `renderFrame` is deterministic — it is a pure function of
(spec, elapsedTime, seed, deltaTime) and the cleared grid, and two
well-formed grids of equal width and height clear to the same grid, so the
two rendered frames agree cell-for-cell (same char, fg, and bg at every
coordinate). -/
theorem C1_renderFrame_deterministic (ops : MathOps) (spec : DreamSpec)
    (time seed dt : ℚ) (g1 g2 : Grid) (hw : g1.width = g2.width)
    (hh : g1.height = g2.height) (hwf1 : g1.wellFormed)
    (hwf2 : g2.wellFormed) :
    ∀ x y : Int,
      (renderFrame ops spec time seed dt g1).getCell x y =
        (renderFrame ops spec time seed dt g2).getCell x y := by
  intro x y
  unfold renderFrame
  rw [Grid.clear_eq_of_dims hw hh hwf1 hwf2]

/-- C1 witness: two different well-formed 2×2 grids (one blank, one with a
cell overwritten) produce identical rendered cells once cleared and
rendered with the same arguments. -/
theorem C1_renderFrame_deterministic_witness :
    (renderFrame zeroOps specNone (1/2) 7 (1/10)
        (Grid.make 2 2)).getCell 0 0 =
      (renderFrame zeroOps specNone (1/2) 7 (1/10)
        ((Grid.make 2 2).setCell 0 0 "X" (some "#ff0000") none)).getCell
        0 0 :=
  C1_renderFrame_deterministic zeroOps specNone (1/2) 7 (1/10)
    (Grid.make 2 2) ((Grid.make 2 2).setCell 0 0 "X" (some "#ff0000") none)
    (by decide) (by decide) (by decide) (by decide) 0 0

/-- The glyph component after an in-bounds `setCell` is always the written
glyph. -/
lemma Grid.setCell_getCell_char {g : Grid} {x y : Int} (hwf : g.wellFormed)
    (hb : g.inBounds x y) (ch : String) (fg bg : Option String) :
    ((g.setCell x y ch fg bg).getCell x y).char = ch := by
  rw [Grid.getCell_eq_entry
      ((Grid.inBounds_setCell g x y ch fg bg x y).mpr hb),
    Grid.idx_setCell, Grid.setCell_entry_self hb hwf]

/-- A fixed scene spec with distortion severity "low" (strength 0.25). -/
def specLow : DreamSpec :=
  ⟨["X"], ["#aabbcc"], ["x"], "static", "low", "medium", 1/2, "calm"⟩

/-- C7 (amended): for strengths in (0, 0.7) — severities low and medium,
where the glitch pass does not run — every destination cell whose rounded
source lies in bounds receives the pre-warp snapshot content of that
source, and every destination whose source falls out of bounds keeps its
pre-distortion content unchanged.  (At strength ≥ 0.7 the glitch pass may
overwrite warped cells, see the counterexample.) -/
theorem C7_backward_warp_per_cell (ops : MathOps) (g : Grid)
    (spec : DreamSpec) (time seed dt : ℚ) (hwf : g.wellFormed)
    (hok : g.colorsOK) (hpos : 0 < getStrength spec.distortion)
    (hlt : getStrength spec.distortion < 7/10) (x y : Int)
    (hb : g.inBounds x y) :
    (DistortionLayer.apply ops g spec time seed dt).getCell x y =
      (if 0 ≤ jsRound ((x : ℚ) + (computeOffset ops x y g.width g.height
            spec.motion time seed (getStrength spec.distortion)).1) ∧
          jsRound ((x : ℚ) + (computeOffset ops x y g.width g.height
            spec.motion time seed (getStrength spec.distortion)).1) <
            (g.width : Int) ∧
          0 ≤ jsRound ((y : ℚ) + (computeOffset ops x y g.width g.height
            spec.motion time seed (getStrength spec.distortion)).2) ∧
          jsRound ((y : ℚ) + (computeOffset ops x y g.width g.height
            spec.motion time seed (getStrength spec.distortion)).2) <
            (g.height : Int)
       then g.getCell
          (jsRound ((x : ℚ) + (computeOffset ops x y g.width g.height
            spec.motion time seed (getStrength spec.distortion)).1))
          (jsRound ((y : ℚ) + (computeOffset ops x y g.width g.height
            spec.motion time seed (getStrength spec.distortion)).2))
       else g.getCell x y) := by
  unfold DistortionLayer.apply
  dsimp only
  rw [if_neg (not_le.mpr hpos), if_neg (not_le.mpr hlt)]
  exact warp_foldl_getCell ops g spec.motion time seed
    (getStrength spec.distortion) hwf hok hb

/-- C7 witness: the per-cell warp characterization instantiated at a
concrete low-distortion spec on a concrete 2×2 grid. -/
theorem C7_backward_warp_per_cell_witness :
    0 < getStrength specLow.distortion ∧
    getStrength specLow.distortion < 7/10 ∧
    (DistortionLayer.apply zeroOps (Grid.make 2 2) specLow 0 0 0).getCell
        0 0 =
      (if 0 ≤ jsRound ((0 : ℚ) + (computeOffset zeroOps 0 0
            (Grid.make 2 2).width (Grid.make 2 2).height specLow.motion 0 0
            (getStrength specLow.distortion)).1) ∧
          jsRound ((0 : ℚ) + (computeOffset zeroOps 0 0
            (Grid.make 2 2).width (Grid.make 2 2).height specLow.motion 0 0
            (getStrength specLow.distortion)).1) <
            ((Grid.make 2 2).width : Int) ∧
          0 ≤ jsRound ((0 : ℚ) + (computeOffset zeroOps 0 0
            (Grid.make 2 2).width (Grid.make 2 2).height specLow.motion 0 0
            (getStrength specLow.distortion)).2) ∧
          jsRound ((0 : ℚ) + (computeOffset zeroOps 0 0
            (Grid.make 2 2).width (Grid.make 2 2).height specLow.motion 0 0
            (getStrength specLow.distortion)).2) <
            ((Grid.make 2 2).height : Int)
       then (Grid.make 2 2).getCell
          (jsRound ((0 : ℚ) + (computeOffset zeroOps 0 0
            (Grid.make 2 2).width (Grid.make 2 2).height specLow.motion 0 0
            (getStrength specLow.distortion)).1))
          (jsRound ((0 : ℚ) + (computeOffset zeroOps 0 0
            (Grid.make 2 2).width (Grid.make 2 2).height specLow.motion 0 0
            (getStrength specLow.distortion)).2))
       else (Grid.make 2 2).getCell 0 0) :=
  ⟨by norm_num [getStrength, specLow], by norm_num [getStrength, specLow],
    C7_backward_warp_per_cell zeroOps (Grid.make 2 2) specLow 0 0 0
      (by decide) (by decide) (by norm_num [getStrength, specLow])
      (by norm_num [getStrength, specLow]) 0 0 (by decide)⟩

/-- C7 counterexample: at severity "extreme" (strength 1 > 0) the glitch
pass runs after the warp and overwrites cell (0,0) of a blank 1×1 grid
with the glyph "█", even though the rounded source of (0,0) is (0,0)
itself, in bounds and blank in the snapshot — so at strength > 0 a
destination cell with an in-bounds source need not receive the snapshot
content of that source, refuting the claim for strengths ≥ 0.7. -/
theorem C7_backward_warp_counterexample :
    0 < getStrength specExtreme.distortion ∧
    computeOffset zeroOps 0 0 1 1 specExtreme.motion 0 0
      (getStrength specExtreme.distortion) = (0, 0) ∧
    jsRound ((0 : ℚ) + 0) = 0 ∧
    (Grid.make 1 1).inBounds 0 0 ∧
    ((DistortionLayer.apply zeroOps (Grid.make 1 1) specExtreme 0 0
      0).getCell 0 0).char = "█" ∧
    ((Grid.make 1 1).getCell 0 0).char = " " ∧
    ¬ ("█" : String) = " " := by
  have hstr : getStrength specExtreme.distortion = 1 := by
    norm_num [getStrength, specExtreme]
  refine ⟨by rw [hstr]; norm_num, ?_, by norm_num [jsRound], by decide,
    ?_, by decide, by decide⟩
  · rw [hstr]
    show computeOffset zeroOps 0 0 1 1 "static" 0 0 1 = (0, 0)
    norm_num [computeOffset, zeroOps]
    rfl
  · unfold DistortionLayer.apply
    dsimp only
    rw [hstr]
    rw [if_neg (by norm_num), if_pos (by norm_num)]
    set g1 := (gridCoords (Grid.make 1 1).width (Grid.make 1 1).height).foldl
      (warpStep zeroOps (gridSnapshot (Grid.make 1 1))
        specExtreme.motion 0 0 1) (Grid.make 1 1) with hg1def
    have hg1 : g1.width = 1 ∧ g1.height = 1 ∧ g1.wellFormed := by
      rw [hg1def]
      exact foldl_grid_preserves
        (fun g' => g'.width = 1 ∧ g'.height = 1 ∧ g'.wellFormed)
        (warpStep zeroOps (gridSnapshot (Grid.make 1 1))
          specExtreme.motion 0 0 1)
        (fun g' c hc =>
          ⟨(warpStep_width _ _ _ _ _ _ g' c).trans hc.1,
            (warpStep_height _ _ _ _ _ _ g' c).trans hc.2.1,
            warpStep_wellFormed _ _ _ _ _ _ hc.2.2 c⟩)
        _ _ ⟨rfl, rfl, by decide⟩
    unfold applyCharacterGlitch
    rw [hg1.1, hg1.2.1]
    have hcoords : gridCoords 1 1 = [(0, 0)] := by decide
    rw [hcoords, List.foldl_cons, List.foldl_nil]
    unfold glitchStep
    dsimp only [zeroOps]
    rw [if_pos (by norm_num)]
    have hb0 : g1.inBounds 0 0 := by
      unfold Grid.inBounds
      rw [hg1.1, hg1.2.1]
      norm_num
    have hfloor : ((⌊(0 : ℚ) * (921/10) + (0 : ℚ) * (3017/10) + (0 : ℚ) * 50
        + (0 : ℚ) * (73/10)⌋ : Int)) = 0 := by norm_num
    rw [Grid.setCell_getCell_char hg1.2.2 hb0]
    norm_num [glitchChars]

/-! ## Ambient-echo pass: counting and placement machinery -/

/-- The raw indices (below `n`) where two grids' stored cells differ. -/
def diffCells (n : Nat) (g' g : Grid) : Finset Nat :=
  (Finset.range n).filter (fun i => g'.entry i ≠ g.entry i)

lemma diffCells_self (n : Nat) (g : Grid) : diffCells n g g = ∅ := by
  unfold diffCells
  apply Finset.filter_false_of_mem
  intro i _ h
  exact h rfl

lemma diffCells_subset_union (n : Nat) (g2 g1 g0 : Grid) :
    diffCells n g2 g0 ⊆ diffCells n g2 g1 ∪ diffCells n g1 g0 := by
  intro i hi
  rw [diffCells, Finset.mem_filter] at hi
  rw [Finset.mem_union, diffCells, diffCells, Finset.mem_filter,
    Finset.mem_filter]
  by_cases h : g1.entry i = g0.entry i
  · exact Or.inl ⟨hi.1, fun he => hi.2 (he.trans h)⟩
  · exact Or.inr ⟨hi.1, h⟩

lemma diffCells_card_le_one {n : Nat} {g' g : Grid} {j : Nat}
    (h : ∀ i, g'.entry i ≠ g.entry i → i = j) :
    (diffCells n g' g).card ≤ 1 := by
  have hsub : diffCells n g' g ⊆ {j} := by
    intro i hi
    rw [diffCells, Finset.mem_filter] at hi
    rw [Finset.mem_singleton]
    exact h i hi.2
  calc (diffCells n g' g).card ≤ ({j} : Finset Nat).card :=
        Finset.card_le_card hsub
    _ = 1 := Finset.card_singleton j

/-- A fold whose every step changes at most one stored index changes at
most `L.length` stored indices in total. -/
lemma foldl_diffCells_card_le (n : Nat) (step : Grid → Nat → Grid)
    (hstep : ∀ (g : Grid) (k : Nat), ∃ j, ∀ i,
      (step g k).entry i ≠ g.entry i → i = j) :
    ∀ (L : List Nat) (g : Grid),
      (diffCells n (L.foldl step g) g).card ≤ L.length := by
  intro L
  induction L with
  | nil =>
    intro g
    rw [List.foldl_nil, diffCells_self]
    simp
  | cons a L ih =>
    intro g
    rw [List.foldl_cons]
    obtain ⟨j, hj⟩ := hstep g a
    calc (diffCells n (L.foldl step (step g a)) g).card
        ≤ (diffCells n (L.foldl step (step g a)) (step g a) ∪
            diffCells n (step g a) g).card :=
          Finset.card_le_card (diffCells_subset_union n _ _ _)
      _ ≤ (diffCells n (L.foldl step (step g a)) (step g a)).card +
            (diffCells n (step g a) g).card := Finset.card_union_le _ _
      _ ≤ L.length + 1 :=
          Nat.add_le_add (ih (step g a)) (diffCells_card_le_one hj)
      _ = (a :: L).length := by simp [Nat.add_comm]

lemma setCell_changes_le_one (g : Grid) (x y : Int) (ch : String)
    (fg bg : Option String) :
    ∃ j, ∀ i, (g.setCell x y ch fg bg).entry i ≠ g.entry i → i = j :=
  ⟨(g.idx x y).toNat, fun i hi => by
    by_contra hne
    exact hi (Grid.setCell_entry_ne x y hne ch fg bg)⟩

/-- Each iteration of the echo loop changes at most one stored index. -/
lemma echoStep_changes_le_one (ops : MathOps) (spec : DreamSpec)
    (time seed : ℚ) (palette : List String) (aX aY : Int) (aW aH : Nat)
    (artChars : List Char) (g : Grid) (k : Nat) :
    ∃ j, ∀ i,
      (echoStep ops spec time seed palette aX aY aW aH artChars g k).entry i
        ≠ g.entry i → i = j := by
  unfold echoStep
  dsimp only
  split
  · exact ⟨0, fun i hi => absurd rfl hi⟩
  · split
    · exact ⟨0, fun i hi => absurd rfl hi⟩
    · split
      · exact ⟨0, fun i hi => absurd rfl hi⟩
      · exact setCell_changes_le_one g _ _ _ _ _

/-- The raw index `i` denotes a grid coordinate outside the art's bounding
box (coordinates recovered as `(i % w, i / w)`). -/
def outsideBoxIdx (w : Nat) (aX aY : Int) (aW aH : Nat) (i : Nat) : Prop :=
  ¬ (aX ≤ ((i % w : Nat) : Int) ∧ ((i % w : Nat) : Int) < aX + (aW : Int) ∧
     aY ≤ ((i / w : Nat) : Int) ∧ ((i / w : Nat) : Int) < aY + (aH : Int))

lemma collectArtChars_ne_space (art : List String) :
    ∀ c ∈ collectArtChars art, c ≠ ' ' := by
  unfold collectArtChars
  have step : ∀ (cs : List Char) (acc : List Char),
      (∀ c ∈ acc, c ≠ ' ') →
      ∀ c ∈ cs.foldl
        (fun acc2 ch => if ch ≠ ' ' ∧ ch ∉ acc2 then acc2 ++ [ch] else acc2)
        acc, c ≠ ' ' := by
    intro cs
    induction cs with
    | nil => intro acc hacc c hc; exact hacc c hc
    | cons a cs ih =>
      intro acc hacc c hc
      rw [List.foldl_cons] at hc
      refine ih _ ?_ c hc
      split
      · intro c' hc'
        rcases List.mem_append.mp hc' with h | h
        · exact hacc c' h
        · rw [List.mem_singleton] at h
          subst h
          rename_i hcond
          exact hcond.1
      · exact hacc
  have outer : ∀ (ls : List String) (acc : List Char),
      (∀ c ∈ acc, c ≠ ' ') →
      ∀ c ∈ ls.foldl
        (fun acc line => line.toList.foldl
          (fun acc2 ch =>
            if ch ≠ ' ' ∧ ch ∉ acc2 then acc2 ++ [ch] else acc2) acc)
        acc, c ≠ ' ' := by
    intro ls
    induction ls with
    | nil => intro acc hacc c hc; exact hacc c hc
    | cons l ls ih =>
      intro acc hacc c hc
      rw [List.foldl_cons] at hc
      exact ih _ (step l.toList acc hacc) c hc
  exact outer art [] (fun c hc => absurd hc (List.not_mem_nil c))

lemma char_toString_ne_space {c : Char} (hc : c ≠ ' ') :
    c.toString ≠ " " := by
  intro h
  apply hc
  have hdata := congrArg String.data h
  simpa [Char.toString] using hdata

/-- The single guarded write of the echo loop preserves the pass
invariant: dimensions and well-formedness are kept, and every stored index
that now differs from the original grid `g0` was blank in `g0`, is
non-blank now, and lies outside the art box. -/
lemma guarded_write_invariant (g0 g : Grid) (ex ey : Int) (ch : String)
    (color : Option String) (hch : ch ≠ " ")
    (h1 : g.width = g0.width) (h2 : g.height = g0.height)
    (h3 : g.wellFormed)
    (aX aY : Int) (aW aH : Nat)
    (h4 : ∀ i, g.entry i ≠ g0.entry i →
      (g0.entry i).char = " " ∧ (g.entry i).char ≠ " " ∧
      outsideBoxIdx g0.width aX aY aW aH i)
    (hb : g.inBounds ex ey)
    (hbox : ¬ (aX ≤ ex ∧ ex < aX + (aW : Int) ∧ aY ≤ ey ∧
      ey < aY + (aH : Int)))
    (hocc : (g.getCell ex ey).char = " ") :
    (g.setCell ex ey ch color none).width = g0.width ∧
    (g.setCell ex ey ch color none).height = g0.height ∧
    (g.setCell ex ey ch color none).wellFormed ∧
    ∀ i, (g.setCell ex ey ch color none).entry i ≠ g0.entry i →
      (g0.entry i).char = " " ∧
      ((g.setCell ex ey ch color none).entry i).char ≠ " " ∧
      outsideBoxIdx g0.width aX aY aW aH i := by
  refine ⟨(Grid.setCell_width g ex ey ch color none).trans h1,
    (Grid.setCell_height g ex ey ch color none).trans h2,
    Grid.setCell_wellFormed h3 ex ey ch color none, ?_⟩
  intro i hi
  by_cases hij : i = (g.idx ex ey).toNat
  · subst hij
    have hwpos : (0 : Int) < g.width := lt_of_le_of_lt hb.1 hb.2.1
    have hgeq : g.entry (g.idx ex ey).toNat = g0.entry (g.idx ex ey).toNat :=
      by
      by_contra hne
      have := (h4 _ hne).2.1
      rw [Grid.getCell_eq_entry hb] at hocc
      exact this hocc
    have hchar0 : (g0.entry (g.idx ex ey).toNat).char = " " := by
      rw [← hgeq, ← Grid.getCell_eq_entry hb]
      exact hocc
    have hnew : ((g.setCell ex ey ch color none).entry
        (g.idx ex ey).toNat).char = ch := by
      rw [Grid.setCell_entry_self hb h3]
    have hx0 := hb.1
    have hxw := hb.2.1
    have hy0 := hb.2.2.1
    have hidx : (g.idx ex ey).toNat = ex.toNat + ey.toNat * g0.width := by
      unfold Grid.idx
      have hcast : ey * (g.width : Int) = ((ey.toNat * g0.width : Nat) : Int)
        := by
        push_cast
        rw [Int.toNat_of_nonneg hy0, h1]
      omega
    have hxt : ex.toNat < g0.width := by
      rw [h1] at hxw
      omega
    have hw0 : 0 < g0.width := by omega
    have hmod : (((g.idx ex ey).toNat % g0.width : Nat) : Int) = ex := by
      rw [hidx, Nat.add_mul_mod_self_right, Nat.mod_eq_of_lt hxt,
        Int.toNat_of_nonneg hx0]
    have hdiv : (((g.idx ex ey).toNat / g0.width : Nat) : Int) = ey := by
      rw [hidx, Nat.add_mul_div_right _ _ hw0, Nat.div_eq_of_lt hxt,
        Nat.zero_add, Int.toNat_of_nonneg hy0]
    refine ⟨hchar0, by rw [hnew]; exact hch, ?_⟩
    unfold outsideBoxIdx
    rw [hmod, hdiv]
    exact hbox
  · rw [Grid.setCell_entry_ne ex ey hij ch color none] at hi ⊢
    exact h4 i hi

/-- One echo iteration preserves dimensions, well-formedness, and the
"changed cells were blank and outside the box" invariant. -/
lemma echoStep_invariant (ops : MathOps) (spec : DreamSpec) (time seed : ℚ)
    (palette : List String) (aX aY : Int) (aW aH : Nat)
    (artChars : List Char) (hart : ∀ c ∈ artChars, c ≠ ' ')
    (g0 g : Grid) (k : Nat) (h1 : g.width = g0.width)
    (h2 : g.height = g0.height) (h3 : g.wellFormed)
    (h4 : ∀ i, g.entry i ≠ g0.entry i →
      (g0.entry i).char = " " ∧ (g.entry i).char ≠ " " ∧
      outsideBoxIdx g0.width aX aY aW aH i) :
    (echoStep ops spec time seed palette aX aY aW aH artChars g k).width
      = g0.width ∧
    (echoStep ops spec time seed palette aX aY aW aH artChars g k).height
      = g0.height ∧
    (echoStep ops spec time seed palette aX aY aW aH artChars g
      k).wellFormed ∧
    ∀ i, (echoStep ops spec time seed palette aX aY aW aH artChars
        g k).entry i ≠ g0.entry i →
      (g0.entry i).char = " " ∧
      ((echoStep ops spec time seed palette aX aY aW aH artChars
        g k).entry i).char ≠ " " ∧
      outsideBoxIdx g0.width aX aY aW aH i := by
  unfold echoStep
  dsimp only
  split
  · exact ⟨h1, h2, h3, h4⟩
  · split
    · exact ⟨h1, h2, h3, h4⟩
    · split
      · exact ⟨h1, h2, h3, h4⟩
      · rename_i hob hbox hocc
        refine guarded_write_invariant g0 g _ _ _ _ ?_ h1 h2 h3 aX aY aW aH
          h4 ?_ hbox (not_ne_iff.mp hocc)
        · rcases listGetD_mem_or_default artChars _ '·' with hm | hdef
          · exact char_toString_ne_space (hart _ hm)
          · rw [hdef]
            exact char_toString_ne_space (by decide)
        · push_neg at hob
          exact ⟨hob.1, hob.2.1, hob.2.2.1, hob.2.2.2⟩

/-- Fold version of `echoStep_invariant` over the whole echo loop. -/
lemma echo_fold_invariant (ops : MathOps) (spec : DreamSpec) (time seed : ℚ)
    (palette : List String) (aX aY : Int) (aW aH : Nat)
    (artChars : List Char) (hart : ∀ c ∈ artChars, c ≠ ' ') (g0 : Grid) :
    ∀ (L : List Nat) (g : Grid), g.width = g0.width →
      g.height = g0.height → g.wellFormed →
      (∀ i, g.entry i ≠ g0.entry i →
        (g0.entry i).char = " " ∧ (g.entry i).char ≠ " " ∧
        outsideBoxIdx g0.width aX aY aW aH i) →
      ∀ i, ((L.foldl
          (echoStep ops spec time seed palette aX aY aW aH artChars)
          g).entry i) ≠ g0.entry i →
        (g0.entry i).char = " " ∧ outsideBoxIdx g0.width aX aY aW aH i := by
  intro L
  induction L with
  | nil =>
    intro g h1 h2 h3 h4 i hi
    exact ⟨(h4 i hi).1, (h4 i hi).2.2⟩
  | cons a L ih =>
    intro g h1 h2 h3 h4
    rw [List.foldl_cons]
    have hstep := echoStep_invariant ops spec time seed palette aX aY aW aH
      artChars hart g0 g a h1 h2 h3 h4
    exact ih _ hstep.1 hstep.2.1 hstep.2.2.1 hstep.2.2.2

/-- On a zero-width grid every echo candidate fails the bounds check, so an
echo iteration is the identity. -/
lemma echoStep_zero_width (ops : MathOps) (spec : DreamSpec)
    (time seed : ℚ) (palette : List String) (aX aY : Int) (aW aH : Nat)
    (artChars : List Char) (g : Grid) (hg : g.width = 0) (k : Nat) :
    echoStep ops spec time seed palette aX aY aW aH artChars g k = g := by
  unfold echoStep
  dsimp only
  rw [if_pos]
  rw [hg]
  omega

lemma echo_foldl_zero_width (ops : MathOps) (spec : DreamSpec)
    (time seed : ℚ) (palette : List String) (aX aY : Int) (aW aH : Nat)
    (artChars : List Char) :
    ∀ (L : List Nat) (g : Grid), g.width = 0 →
      L.foldl (echoStep ops spec time seed palette aX aY aW aH artChars) g
        = g := by
  intro L
  induction L with
  | nil => intro g _; rfl
  | cons a L ih =>
    intro g hg
    rw [List.foldl_cons,
      echoStep_zero_width ops spec time seed palette aX aY aW aH artChars g
        hg a]
    exact ih g hg

/-- C8: the ambient-echo pass writes at most `8 + density·20` cells (it
performs `Math.floor(8 + density·20)` iterations, each writing at most one
cell); every cell it changes was blank (char `" "`) before the pass and
lies outside the art's bounding box; and the requested echo count is only
an upper bound — on a degenerate grid the pass writes nothing although the
requested count is positive. -/
theorem C8_ambient_echoes_bounded (ops : MathOps) (g : Grid)
    (spec : DreamSpec) (art : List String) (time seed : ℚ)
    (palette : List String) (aX aY : Int) (aW aH : Nat)
    (hwf : g.wellFormed) (hd : 0 ≤ spec.density) :
    ((diffCells (g.width * g.height)
        (drawAmbientEchoes ops g spec art time seed palette aX aY aW aH)
        g).card : ℚ) ≤ 8 + spec.density * 20 ∧
    (∀ i, (drawAmbientEchoes ops g spec art time seed palette aX aY aW
        aH).entry i ≠ g.entry i →
      (g.entry i).char = " " ∧ outsideBoxIdx g.width aX aY aW aH i) ∧
    (drawAmbientEchoes zeroOps (Grid.make 0 0) specNone ["X"] 0 0
        ["#aabbcc"] 5 5 1 1 = Grid.make 0 0 ∧
      0 < ⌊(8 : ℚ) + specNone.density * 20⌋) := by
  have hq0 : (0 : ℚ) ≤ 8 + spec.density * 20 := by nlinarith
  refine ⟨?_, ?_, ?_, ?_⟩
  · unfold drawAmbientEchoes
    dsimp only
    split
    · rw [diffCells_self]
      simpa using hq0
    · have hcard := foldl_diffCells_card_le (g.width * g.height)
        (echoStep ops spec time seed palette aX aY aW aH
          (collectArtChars art))
        (fun g' k => echoStep_changes_le_one ops spec time seed palette
          aX aY aW aH (collectArtChars art) g' k)
        (List.range (⌊(8 : ℚ) + spec.density * 20⌋).toNat) g
      rw [List.length_range] at hcard
      have hfl0 : 0 ≤ ⌊(8 : ℚ) + spec.density * 20⌋ :=
        Int.le_floor.mpr (by exact_mod_cast hq0)
      calc ((diffCells (g.width * g.height) _ g).card : ℚ)
          ≤ ((⌊(8 : ℚ) + spec.density * 20⌋.toNat : Nat) : ℚ) := by
            exact_mod_cast hcard
        _ = ((⌊(8 : ℚ) + spec.density * 20⌋ : Int) : ℚ) := by
            exact_mod_cast Int.toNat_of_nonneg hfl0
        _ ≤ 8 + spec.density * 20 := Int.floor_le _
  · unfold drawAmbientEchoes
    dsimp only
    split
    · intro i hi
      exact absurd rfl hi
    · exact echo_fold_invariant ops spec time seed palette aX aY aW aH
        (collectArtChars art) (collectArtChars_ne_space art) g _ g rfl rfl
        hwf (fun i hi => absurd rfl hi)
  · unfold drawAmbientEchoes
    dsimp only
    rw [if_neg (by decide)]
    exact echo_foldl_zero_width zeroOps specNone 0 0 ["#aabbcc"] 5 5 1 1
      (collectArtChars ["X"]) _ (Grid.make 0 0) rfl
  · norm_num [specNone]

/-- C8 witness: the echo-pass bound instantiated on a concrete 2×2 grid
with a concrete spec, art, palette and box. -/
theorem C8_ambient_echoes_bounded_witness :
    ((diffCells ((Grid.make 2 2).width * (Grid.make 2 2).height)
        (drawAmbientEchoes zeroOps (Grid.make 2 2) specNone ["X"] 0 0
          ["#aabbcc"] 5 5 1 1)
        (Grid.make 2 2)).card : ℚ) ≤ 8 + specNone.density * 20 ∧
    (∀ i, (drawAmbientEchoes zeroOps (Grid.make 2 2) specNone ["X"] 0 0
        ["#aabbcc"] 5 5 1 1).entry i ≠ (Grid.make 2 2).entry i →
      ((Grid.make 2 2).entry i).char = " " ∧
      outsideBoxIdx (Grid.make 2 2).width 5 5 1 1 i) ∧
    (drawAmbientEchoes zeroOps (Grid.make 0 0) specNone ["X"] 0 0
        ["#aabbcc"] 5 5 1 1 = Grid.make 0 0 ∧
      0 < ⌊(8 : ℚ) + specNone.density * 20⌋) :=
  C8_ambient_echoes_bounded zeroOps (Grid.make 2 2) specNone ["X"] 0 0
    ["#aabbcc"] 5 5 1 1 (by decide) (by norm_num [specNone])
